import Mathlib

/- Verification of the syava-lang compiler front end (src/parse.rs, src/ast/expr.rs,
   src/ty.rs).  The lexer and parser are embedded as executable functions over
   character and token lists; the type checker and the AST-to-MIR translator are
   embedded over an inductive AST mirroring src/ast/expr.rs.  Components of the
   repository that are referenced from src/ but whose definitions are not present
   under src/ (the interning type context, the union-find, and the MIR builder)
   are modelled from the specification and marked as such in their doc comments.

   Modelling conventions, applied uniformly:
   * Rust u64 values are modelled as Nat (overflow points are made explicit);
   * the lexer's one-character readahead (getc/ungetc) is modelled by working
     directly on a List Char, where ungetc is consing the character back;
   * the parser's one-token peekahead is likewise modelled by a List Token;
   * recursive loops that are not structurally recursive carry an explicit fuel
     parameter; running out of fuel is the distinguished outcome fuelOut, which
     never occurs in any run appearing in a theorem below;
   * Rust panics (assert!, expect, unreachable!) are modelled by the explicit
     outcome panicked/ice, kept distinct from the source's ParserError/AstError;
   * the diagnostic-only fields line and compiler of the source error enums are
     omitted, except where a claim depends on them (parse_ty's line argument,
     which the source threads into UnknownType, is kept). -/

set_option autoImplicit false

namespace SyavaLang

/- ===== Tokens (src/parse.rs, enum Token / Operand / TokenType) ===== -/

inductive Operand where
  | mul | div | rem
  | plus | minus
  | shl | shr
  | and | xor | or
  | equalsEquals | notEquals | lessThan | lessThanEquals | greaterThan | greaterThanEquals
  | andAnd | orOr
  | not
deriving DecidableEq, Repr

/-- Operand::precedence; the source calls unreachable! on Not, modelled as none. -/
def Operand.precedence : Operand → Option Nat
  | .mul | .div | .rem => some 9
  | .plus | .minus => some 8
  | .shl | .shr => some 7
  | .and => some 6
  | .xor => some 5
  | .or => some 4
  | .equalsEquals | .notEquals | .lessThan | .lessThanEquals
  | .greaterThan | .greaterThanEquals => some 3
  | .andAnd => some 2
  | .orOr => some 1
  | .not => none

inductive Token where
  | keywordFn
  | keywordLet
  | keywordReturn
  | closeBrace
  | keywordTrue
  | keywordFalse
  | keywordIf
  | keywordElse
  | ident (s : String)
  | integer (value : Nat) (suffix : String)
  | operand (op : Operand)
  | openParen
  | closeParen
  | openBrace
  | semicolon
  | colon
  | comma
  | skinnyArrow
  | equals
  | eof
deriving DecidableEq, Repr

inductive TokenType where
  | item
  | statement
  | expression
  | operandTy
  | misc
  | specific (t : Token)
  | anyOf (ts : List Token)
deriving DecidableEq, Repr

/-- Token::ty (src/parse.rs). -/
def Token.ty : Token → TokenType
  | .keywordFn => .item
  | .keywordLet | .closeBrace => .statement
  | .keywordReturn | .keywordTrue | .keywordFalse | .keywordIf
  | .ident _ | .integer _ _ => .expression
  | .operand _ => .operandTy
  | .keywordElse | .openParen | .closeParen | .openBrace | .semicolon
  | .colon | .skinnyArrow | .comma | .equals | .eof => .misc

/- ===== Errors (src/parse.rs, enum ParserError) ===== -/

inductive ParserError where
  | expectedEof
  | unclosedComment
  | unknownType (found : String) (line : Nat)
  | invalidToken (token : Char) (line : Nat)
  | duplicatedFunctionArgument (argument : String) (function : String)
  | duplicatedFunction (function : String)
  | unexpectedToken (found : Token) (expected : TokenType)
  | expectedSemicolon
  | invalidSuffix (suffix : String)
deriving DecidableEq, Repr

/-- Failure outcomes of a lexer run: a source-level ParserError, a Rust panic,
    or exhaustion of the termination fuel (an artifact of the embedding). -/
inductive LexFail where
  | err (e : ParserError)
  | panicked (msg : String)
  | fuelOut
deriving DecidableEq, Repr

/- ===== Lexer (src/parse.rs, impl Lexer) ===== -/

/-- Lexer::is_start_of_ident. -/
def isStartOfIdent (c : Char) : Bool :=
  ('a' ≤ c && c ≤ 'z') || ('A' ≤ c && c ≤ 'Z') || c == '_'

/-- Lexer::is_integer. -/
def isInteger (c : Char) : Bool :=
  '0' ≤ c && c ≤ '9'

/-- Lexer::is_ident. -/
def isIdent (c : Char) : Bool :=
  isStartOfIdent c || isInteger c

/-- Lexer::is_whitespace. -/
def isWhitespace (c : Char) : Bool :=
  c == '\t' || c == '\n' || c == '\r' || c == ' '

/-- The collection loop of Lexer::ident: take characters while is_ident holds;
    the first non-matching character is ungetc-ed (left at the head of the rest). -/
def identChars : List Char → List Char × List Char
  | [] => ([], [])
  | c :: rest =>
    if isIdent c then
      let (s, r) := identChars rest
      (c :: s, r)
    else ([], c :: rest)

/-- The digit-collection loop of the integer case of Lexer::next_token. -/
def digitChars : List Char → List Char × List Char
  | [] => ([], [])
  | c :: rest =>
    if isInteger c then
      let (s, r) := digitChars rest
      (c :: s, r)
    else ([], c :: rest)

/-- Numeric value of a run of decimal digits (the semantics of str::parse). -/
def digitsToNat (ds : List Char) : Nat :=
  ds.foldl (fun acc c => acc * 10 + (c.toNat - Char.toNat '0')) 0

/-- Lexer::eat_whitespace, also threading the line counter. -/
def eatWhitespace : List Char → Nat → List Char × Nat
  | [], line => ([], line)
  | c :: rest, line =>
    if isWhitespace c then
      eatWhitespace rest (if c == '\n' then line + 1 else line)
    else (c :: rest, line)

/-- Lexer::line_comment. -/
def lineComment : List Char → Nat → List Char × Nat
  | [], line => ([], line)
  | c :: rest, line =>
    if c == '\n' then (rest, line + 1) else lineComment rest line

/-- Lexer::block_comment.  Faithful to the source scanner: after reading a star
    or slash it unconditionally reads (and consumes) a second character. -/
def blockComment : Nat → List Char → Nat → Except LexFail (List Char × Nat)
  | 0, _, _ => .error .fuelOut
  | fuel + 1, chars, line =>
    match chars with
    | [] => .error (.err .unclosedComment)
    | '*' :: rest =>
      match rest with
      | '/' :: r => .ok (r, line)
      | '\n' :: r => blockComment fuel r (line + 1)
      | [] => .error (.err .unclosedComment)
      | _ :: r => blockComment fuel r line
    | '/' :: rest =>
      match rest with
      | '*' :: r => do
        let (r2, l2) ← blockComment fuel r line
        blockComment fuel r2 l2
      | '\n' :: r => blockComment fuel r (line + 1)
      | [] => .error (.err .unclosedComment)
      | _ :: r => blockComment fuel r line
    | '\n' :: rest => blockComment fuel rest (line + 1)
    | _ :: rest => blockComment fuel rest line

/-- Lexer::next_token. -/
def nextToken : Nat → List Char → Nat → Except LexFail (Token × List Char × Nat)
  | 0, _, _ => .error .fuelOut
  | fuel + 1, chars0, line0 =>
    let (chars, line) := eatWhitespace chars0 line0
    match chars with
    | [] => .ok (.eof, [], line)
    | first :: rest =>
      match first with
      | '(' => .ok (.openParen, rest, line)
      | ')' => .ok (.closeParen, rest, line)
      | '{' => .ok (.openBrace, rest, line)
      | '}' => .ok (.closeBrace, rest, line)
      | ';' => .ok (.semicolon, rest, line)
      | ':' => .ok (.colon, rest, line)
      | ',' => .ok (.comma, rest, line)
      | '*' => .ok (.operand .mul, rest, line)
      | '%' => .ok (.operand .rem, rest, line)
      | '+' => .ok (.operand .plus, rest, line)
      | '-' =>
        match rest with
        | '>' :: r => .ok (.skinnyArrow, r, line)
        | _ => .ok (.operand .minus, rest, line)
      | '/' =>
        match rest with
        | '*' :: r => do
          let (r2, l2) ← blockComment (r.length + 1) r line
          nextToken fuel r2 l2
        | '/' :: r =>
          let (r2, l2) := lineComment r line
          nextToken fuel r2 l2
        | _ => .ok (.operand .div, rest, line)
      | '!' =>
        match rest with
        | '=' :: r => .ok (.operand .notEquals, r, line)
        | _ => .ok (.operand .not, rest, line)
      | '<' =>
        match rest with
        | '<' :: r => .ok (.operand .shl, r, line)
        | '=' :: r => .ok (.operand .lessThanEquals, r, line)
        | _ => .ok (.operand .lessThan, rest, line)
      | '>' =>
        match rest with
        | '>' :: r => .ok (.operand .shr, r, line)
        | '=' :: r => .ok (.operand .greaterThanEquals, r, line)
        | _ => .ok (.operand .greaterThan, rest, line)
      | '=' =>
        match rest with
        | '=' :: r => .ok (.operand .equalsEquals, r, line)
        | _ => .ok (.equals, rest, line)
      | '&' =>
        match rest with
        | '&' :: r => .ok (.operand .andAnd, r, line)
        | _ => .ok (.operand .and, rest, line)
      | '|' =>
        match rest with
        | '|' :: r => .ok (.operand .orOr, r, line)
        | _ => .ok (.operand .or, rest, line)
      | '^' => .ok (.operand .xor, rest, line)
      | c =>
        if isStartOfIdent c then
          let (s, r) := identChars rest
          let id := String.mk (c :: s)
          match id with
          | "fn" => .ok (.keywordFn, r, line)
          | "return" => .ok (.keywordReturn, r, line)
          | "let" => .ok (.keywordLet, r, line)
          | "if" => .ok (.keywordIf, r, line)
          | "else" => .ok (.keywordElse, r, line)
          | "true" => .ok (.keywordTrue, r, line)
          | "false" => .ok (.keywordFalse, r, line)
          | _ => .ok (.ident id, r, line)
        else if isInteger c then
          let (ds, r1) := digitChars rest
          let (sfx, r2) := identChars r1
          let value := digitsToNat (c :: ds)
          if value < 2 ^ 64 then
            .ok (.integer value (String.mk sfx), r2, line)
          else
            .error (.panicked ("u64 parse overflow"))
        else
          .error (.err (.invalidToken c line))

/-- A lexer run with the canonical fuel: every next_token step consumes at least
    one character, so length + 1 steps always suffice. -/
def nextTokenRun (chars : List Char) (line : Nat) : Except LexFail (Token × List Char × Nat) :=
  nextToken (chars.length + 1) chars line

/-- Full tokenization of a source text (the parser pulls tokens on demand; since
    lexing one token never depends on parser state, pre-lexing is equivalent). -/
def lexAll : Nat → List Char → Nat → Except LexFail (List Token)
  | 0, _, _ => .error .fuelOut
  | fuel + 1, chars, line => do
    let (t, rest, l2) ← nextToken (chars.length + 1) chars line
    match t with
    | .eof => .ok []
    | t => do
      let ts ← lexAll fuel rest l2
      .ok (t :: ts)

def lexAllRun (chars : List Char) : Except LexFail (List Token) :=
  lexAll (chars.length + 1) chars 1

/- ===== Types (ty::Type / TypeVariant) =====
   Modelled from the spec: the interning ty module of this revision (TypeContext,
   TypeVariant, ty::Int with widths 8/16/32/64) is referenced from src/parse.rs and
   src/ast/expr.rs but its definition is not under src/ (the ty.rs present there is
   a superseded variant with only I32).  Spec section 3: SInt(w)/UInt(w) with
   w in 8/16/32/64, Bool, Unit, Reference(T), Diverging, Infer(id), InferInt(id).
   Interned handles compare structurally, so a plain inductive with decidable
   equality is a faithful model; inference ids are optional, assigned by
   generate_inference_id during type checking. -/

inductive IntW where
  | i8 | i16 | i32 | i64
deriving DecidableEq, Repr

inductive TyS where
  | sint (w : IntW)
  | uint (w : IntW)
  | bool
  | unit
  | reference (inner : TyS)
  | diverging
  | infer (id : Option Nat)
  | inferInt (id : Option Nat)
deriving DecidableEq, Repr

/- ===== AST (src/ast/expr.rs: Stmt, ExprKind, Expr; ast::Block, ast::Item) ===== -/

mutual
inductive Expr where
  | mk (kind : ExprKind) (ty : TyS)
deriving Repr

inductive ExprKind where
  | call (callee : String) (args : List Expr)
  | ifExpr (condition : Expr) (thenValue : BlockA) (elseValue : BlockA)
  | blockExpr (b : BlockA)
  | binop (op : Operand) (lhs : Expr) (rhs : Expr)
  | pos (e : Expr)
  | neg (e : Expr)
  | not (e : Expr)
  | ref (e : Expr)
  | var (name : String)
  | intLiteral (v : Nat)
  | boolLiteral (b : Bool)
  | unitLiteral
  | ret (e : Expr)
  | assign (dst : String) (src : Expr)
  | deref (e : Expr)
deriving Repr

inductive BlockA where
  | mk (stmts : List Stmt) (expr : Option Expr)
deriving Repr

inductive Stmt where
  | letStmt (name : String) (ty : TyS) (value : Option Expr)
  | exprStmt (e : Expr)
deriving Repr
end

/- ExprKind.deref appears in src/parse.rs (Expr::deref for unary `*`) but has no
   definition in src/ast/expr.rs; it is carried here so the parser embedding is
   total, and no theorem below depends on it (spec section 9 lists the deref
   operator as an open question). -/

def Expr.kind : Expr → ExprKind
  | .mk k _ => k

def Expr.ty : Expr → TyS
  | .mk _ t => t

/- Constructors from src/ast/expr.rs (impl Expr) and src/parse.rs (Operand::expr).
   Type::infer(ctxt) yields an inference variable with no id yet. -/

def Expr.callE (callee : String) (args : List Expr) : Expr := .mk (.call callee args) (.infer none)

def Expr.varE (name : String) : Expr := .mk (.var name) (.infer none)

def Expr.ifElseE (cond : Expr) (thenV : BlockA) (elseV : BlockA) : Expr :=
  .mk (.ifExpr cond thenV elseV) (.infer none)

def Expr.blockE (b : BlockA) : Expr := .mk (.blockExpr b) (.infer none)

def Expr.intLit (v : Nat) : Expr := .mk (.intLiteral v) (.inferInt none)

def Expr.intLitWithTy (v : Nat) (ty : TyS) : Expr := .mk (.intLiteral v) ty

def Expr.boolLit (b : Bool) : Expr := .mk (.boolLiteral b) .bool

def Expr.unitLit : Expr := .mk .unitLiteral .unit

def Expr.negE (inner : Expr) : Expr := .mk (.neg inner) (.infer none)

def Expr.posE (inner : Expr) : Expr := .mk (.pos inner) (.infer none)

def Expr.notE (inner : Expr) : Expr := .mk (.not inner) (.infer none)

def Expr.refE (inner : Expr) : Expr := .mk (.ref inner) (.reference (.infer none))

def Expr.derefE (inner : Expr) : Expr := .mk (.deref inner) (.infer none)

def Expr.retE (inner : Expr) : Expr := .mk (.ret inner) .diverging

def Expr.assignE (dst : String) (src : Expr) : Expr := .mk (.assign dst src) .unit

/-- Expr::is_block (src/ast/expr.rs). -/
def Expr.isBlock (e : Expr) : Bool :=
  match e.kind with
  | .ifExpr _ _ _ | .blockExpr _ => true
  | _ => false

/-- ast::Block::new (shape fixed by its uses in src/parse.rs). -/
def BlockA.new (stmts : List Stmt) (expr : Option Expr) : BlockA := .mk stmts expr

/-- ast::Block::expr, a block holding only a trailing expression
    (shape fixed by its uses in src/parse.rs and src/ast/expr.rs). -/
def BlockA.exprOnly (e : Expr) : BlockA := .mk [] (some e)

def BlockA.stmts : BlockA → List Stmt
  | .mk s _ => s

def BlockA.expr : BlockA → Option Expr
  | .mk _ e => e

/-- ast::Item (shape fixed by its construction in src/parse.rs). -/
inductive ItemA where
  | function (name : String) (ret : TyS) (args : List (String × TyS)) (body : BlockA)
deriving Repr

/-- The binop expression built by Operand::expr; the source first calls
    self.precedence(), which panics on Not. -/
def Operand.exprCore (op : Operand) (lhs rhs : Expr) : Expr :=
  .mk (.binop op lhs rhs) (.infer none)

def Operand.mkExpr (op : Operand) (lhs rhs : Expr) : Option Expr :=
  match op.precedence with
  | some _ => some (op.exprCore lhs rhs)
  | none => none

/- ===== Parser (src/parse.rs, impl Parser) =====
   The parser is embedded over a token list; its one-token peekahead buffer is
   modelled by the list itself (unget_token is consing the token back).  A lexer
   that has reached the end of input keeps returning Eof, so get_token on the
   empty list yields Eof. -/

inductive PError where
  | pe (e : ParserError)
  | ice (msg : String)
  | fuelOut
deriving DecidableEq, Repr

def headTok (toks : List Token) : Token :=
  match toks with
  | [] => .eof
  | t :: _ => t

def getTok (toks : List Token) : Token × List Token :=
  match toks with
  | [] => (.eof, [])
  | t :: r => (t, r)

/-- Parser::maybe_peek_ty. -/
def maybePeekTy (expected : TokenType) (toks : List Token) : Option Token :=
  let token := headTok toks
  match expected with
  | .specific t => if token = t then some token else none
  | .anyOf ts => if token ∈ ts then some token else none
  | tt => if token.ty = tt then some token else none

/-- Parser::peek_ty; on success the token is not consumed, on failure the
    offending token is consumed into the error. -/
def peekTy (expected : TokenType) (toks : List Token) : Except PError (Token × List Token) :=
  match maybePeekTy expected toks with
  | some t => .ok (t, toks)
  | none => .error (.pe (.unexpectedToken (getTok toks).1 expected))

/-- Parser::maybe_eat_ty. -/
def maybeEatTy (expected : TokenType) (toks : List Token) : Option Token × List Token :=
  match maybePeekTy expected toks with
  | some _ => ((getTok toks).1, (getTok toks).2) |> fun (t, r) => (some t, r)
  | none => (none, toks)

/-- Parser::eat_ty. -/
def eatTy (expected : TokenType) (toks : List Token) : Except PError (Token × List Token) :=
  match maybeEatTy expected toks with
  | (some t, r) => .ok (t, r)
  | (none, r) => .error (.pe (.unexpectedToken (getTok r).1 expected))

def maybeEat (expected : Token) (toks : List Token) : Option Token × List Token :=
  maybeEatTy (.specific expected) toks

def eat (expected : Token) (toks : List Token) : Except PError (Token × List Token) :=
  eatTy (.specific expected) toks

def maybePeek (expected : Token) (toks : List Token) : Option Token :=
  maybePeekTy (.specific expected) toks

/-- Parser::parse_ident. -/
def parseIdent (toks : List Token) : Except PError (String × List Token) :=
  match getTok toks with
  | (.ident s, r) => .ok (s, r)
  | (tok, _) => .error (.pe (.unexpectedToken tok (.specific (.ident ("")))))

/-- Parser::parse_ty.  The line argument mirrors the source's line parameter:
    callers pass line!(), the Rust source line of the call site, and the source
    threads exactly that value into the UnknownType error it returns. -/
def parseTy (toks : List Token) (line : Nat) : Except PError (TyS × List Token) :=
  match toks with
  | .ident s :: rest =>
    match s with
    | "s8" => .ok (.sint .i8, rest)
    | "s16" => .ok (.sint .i16, rest)
    | "s32" => .ok (.sint .i32, rest)
    | "s64" => .ok (.sint .i64, rest)
    | "u8" => .ok (.uint .i8, rest)
    | "u16" => .ok (.uint .i16, rest)
    | "u32" => .ok (.uint .i32, rest)
    | "u64" => .ok (.uint .i64, rest)
    | "bool" => .ok (.bool, rest)
    | _ => .error (.pe (.unknownType s line))
  | .openParen :: rest => do
    let (_, r) ← eat .closeParen rest
    .ok (.unit, r)
  | .operand .and :: rest => do
    let (inner, r) ← parseTy rest line
    .ok (.reference inner, r)
  | .operand .andAnd :: rest => do
    let (inner, r) ← parseTy rest line
    .ok (.reference (.reference inner), r)
  | toks =>
    .error (.pe (.unexpectedToken (getTok toks).1 (.anyOf [.ident (""), .openParen])))

mutual

/-- Parser::maybe_parse_single_expr. -/
def maybeParseSingleExpr : Nat → List Token → Except PError (Option Expr × List Token)
  | 0, _ => .error .fuelOut
  | fuel + 1, toks =>
    match getTok toks with
    | (.ident name, rest) =>
      match maybeEat .openParen rest with
      | (some _, rest1) => do
        let (first, rest2) ← maybeParseExpr fuel rest1
        match first with
        | some e0 => do
          let (args, rest3) ← parseCallArgsLoop fuel rest2 [e0]
          let (_, rest4) ← eat .closeParen rest3
          .ok (some (Expr.callE name args), rest4)
        | none => do
          let (_, rest3) ← eat .closeParen rest2
          .ok (some (Expr.callE name []), rest3)
      | (none, rest1) => .ok (some (Expr.varE name), rest1)
    | (.keywordIf, rest) => do
      let (condition, rest1) ← parseExpr fuel rest
      let (ifValue, rest2) ← parseBlock fuel rest1
      match maybeEat .keywordElse rest2 with
      | (some _, rest3) => do
        let (t, rest4) ← peekTy (.anyOf [.openBrace, .keywordIf]) rest3
        match t with
        | .openBrace => do
          let (elseValue, rest5) ← parseBlock fuel rest4
          .ok (some (Expr.ifElseE condition ifValue elseValue), rest5)
        | .keywordIf => do
          let (elseValue, rest5) ← parseBlock fuel rest4
          .ok (some (Expr.ifElseE condition ifValue elseValue), rest5)
        | _ => .error (.ice ("unreachable: peek_ty returned a token outside its AnyOf set"))
      | (none, rest3) =>
        .ok (some (Expr.ifElseE condition ifValue (BlockA.exprOnly Expr.unitLit)), rest3)
    | (.openBrace, _) => do
      let (b, rest1) ← parseBlock fuel toks
      .ok (some (Expr.blockE b), rest1)
    | (.integer value suffix, rest) =>
      if suffix = "" then .ok (some (Expr.intLit value), rest)
      else
        match suffix with
        | "s8" => .ok (some (Expr.intLitWithTy value (.sint .i8)), rest)
        | "s16" => .ok (some (Expr.intLitWithTy value (.sint .i16)), rest)
        | "s32" => .ok (some (Expr.intLitWithTy value (.sint .i32)), rest)
        | "s64" => .ok (some (Expr.intLitWithTy value (.sint .i64)), rest)
        | "u8" => .ok (some (Expr.intLitWithTy value (.uint .i8)), rest)
        | "u16" => .ok (some (Expr.intLitWithTy value (.uint .i16)), rest)
        | "u32" => .ok (some (Expr.intLitWithTy value (.uint .i32)), rest)
        | "u64" => .ok (some (Expr.intLitWithTy value (.uint .i64)), rest)
        | _ => .error (.pe (.invalidSuffix suffix))
    | (.openParen, rest) =>
      match maybeEat .closeParen rest with
      | (some _, rest1) => .ok (some Expr.unitLit, rest1)
      | (none, _) => do
        let (e, rest1) ← parseExpr fuel rest
        let (_, rest2) ← eat .closeParen rest1
        .ok (some e, rest2)
    | (.operand .minus, rest) => do
      let (inner, r) ← parseSingleExpr fuel rest
      .ok (some (Expr.negE inner), r)
    | (.operand .plus, rest) => do
      let (inner, r) ← parseSingleExpr fuel rest
      .ok (some (Expr.posE inner), r)
    | (.operand .not, rest) => do
      let (inner, r) ← parseSingleExpr fuel rest
      .ok (some (Expr.notE inner), r)
    | (.operand .and, rest) => do
      let (inner, r) ← parseSingleExpr fuel rest
      .ok (some (Expr.refE inner), r)
    | (.operand .andAnd, rest) => do
      let (inner, r) ← parseSingleExpr fuel rest
      .ok (some (Expr.refE (Expr.refE inner)), r)
    | (.operand .mul, rest) => do
      let (inner, r) ← parseSingleExpr fuel rest
      .ok (some (Expr.derefE inner), r)
    | (.keywordTrue, rest) => .ok (some (Expr.boolLit true), rest)
    | (.keywordFalse, rest) => .ok (some (Expr.boolLit false), rest)
    | (.keywordReturn, rest) => do
      let (o, rest1) ← maybeParseExpr fuel rest
      match o with
      | some e => .ok (some (Expr.retE e), rest1)
      | none => .ok (some (Expr.retE Expr.unitLit), rest1)
    | (_, _) => .ok (none, toks)

/-- The argument loop of the call case of maybe_parse_single_expr. -/
def parseCallArgsLoop : Nat → List Token → List Expr → Except PError (List Expr × List Token)
  | 0, _, _ => .error .fuelOut
  | fuel + 1, toks, acc =>
    match maybeEat .comma toks with
    | (some _, rest) => do
      let (e, rest2) ← parseExpr fuel rest
      parseCallArgsLoop fuel rest2 (acc ++ [e])
    | (none, rest) => .ok (acc, rest)

/-- Parser::parse_single_expr. -/
def parseSingleExpr : Nat → List Token → Except PError (Expr × List Token)
  | 0, _ => .error .fuelOut
  | fuel + 1, toks => do
    let (o, rest) ← maybeParseSingleExpr fuel toks
    match o with
    | some e => .ok (e, rest)
    | none => .error (.pe (.unexpectedToken (getTok rest).1 .expression))

/-- Parser::maybe_parse_expr.  The source calls Expr::assign(lhs, rhs) where the
    Assign node of src/ast/expr.rs stores a String destination; the embedding
    reconciles the two files by taking the name when lhs is a variable (no claim
    below exercises assignment parsing). -/
def maybeParseExpr : Nat → List Token → Except PError (Option Expr × List Token)
  | 0, _ => .error .fuelOut
  | fuel + 1, toks => do
    let (o, rest) ← maybeParseSingleExpr fuel toks
    match o with
    | none => .ok (none, rest)
    | some lhs =>
      match maybeEatTy .operandTy rest with
      | (some (.operand op), rest1) => do
        let (e, rest2) ← parseBinop fuel lhs op rest1
        .ok (some e, rest2)
      | (some _, _) => .error (.ice ("unreachable: Operand token type without Operand token"))
      | (none, rest1) =>
        match maybeEat .equals rest1 with
        | (some _, rest2) => do
          let (src, rest3) ← parseExpr fuel rest2
          match lhs.kind with
          | .var name => .ok (some (Expr.assignE name src), rest3)
          | _ => .error (.ice ("assign destination is not a variable"))
        | (none, rest2) => .ok (some lhs, rest2)

/-- Parser::parse_expr. -/
def parseExpr : Nat → List Token → Except PError (Expr × List Token)
  | 0, _ => .error .fuelOut
  | fuel + 1, toks => do
    let (lhs, rest) ← parseSingleExpr fuel toks
    match maybeEatTy .operandTy rest with
    | (some (.operand op), rest1) => parseBinop fuel lhs op rest1
    | (some _, _) => .error (.ice ("unreachable: Operand token type without Operand token"))
    | (none, rest1) => .ok (lhs, rest1)

/-- Parser::parse_binop (precedence climbing). -/
def parseBinop : Nat → Expr → Operand → List Token → Except PError (Expr × List Token)
  | 0, _, _, _ => .error .fuelOut
  | fuel + 1, lhs, leftOp, toks => do
    let (rhs, rest) ← parseSingleExpr fuel toks
    match maybeEatTy .operandTy rest with
    | (some (.operand rightOp), rest1) =>
      match leftOp.precedence, rightOp.precedence with
      | some lp, some rp =>
        if lp ≥ rp then
          parseBinop fuel (leftOp.exprCore lhs rhs) rightOp rest1
        else do
          let (newRhs, rest2) ← parseBinop fuel rhs rightOp rest1
          .ok (leftOp.exprCore lhs newRhs, rest2)
      | _, _ => .error (.ice ("Not is not a binop"))
    | (some _, _) => .error (.ice ("unreachable: Operand token type without Operand token"))
    | (none, rest1) =>
      match leftOp.mkExpr lhs rhs with
      | some e => .ok (e, rest1)
      | none => .error (.ice ("Not is not a binop"))

/-- Parser::parse_stmt. -/
def parseStmt : Nat → List Token → Except PError (Option (Sum Stmt Expr) × List Token)
  | 0, _ => .error .fuelOut
  | fuel + 1, toks => do
    let (o, rest) ← maybeParseExpr fuel toks
    match o with
    | some e =>
      match maybeEat .semicolon rest with
      | (some _, rest1) => .ok (some (.inl (Stmt.exprStmt e)), rest1)
      | (none, rest1) =>
        if e.isBlock then
          match maybePeek .closeBrace rest1 with
          | some _ => .ok (some (.inr e), rest1)
          | none => .ok (some (.inl (Stmt.exprStmt e)), rest1)
        else .ok (some (.inr e), rest1)
    | none => do
      let (t, rest1) ← eatTy .statement rest
      match t with
      | .keywordLet => do
        let (name, rest2) ← parseIdent rest1
        let (ty, rest3) ←
          match maybeEat .colon rest2 with
          | (some _, r) => parseTy r 869
          | (none, r) => pure (TyS.infer none, r)
        let (value, rest4) ←
          match maybeEat .equals rest3 with
          | (some _, r) => do
            let (e, r2) ← parseExpr fuel r
            pure (some e, r2)
          | (none, r) => pure (none, r)
        let (_, rest5) ← eat .semicolon rest4
        .ok (some (.inl (Stmt.letStmt name ty value)), rest5)
      | .closeBrace => .ok (none, Token.closeBrace :: rest1)
      | _ => .error (.ice ("unreachable: Statement token type is KeywordLet or CloseBrace"))

/-- The statement loop of Parser::parse_block. -/
def parseBlockLoop : Nat → List Token → List Stmt →
    Except PError (List Stmt × Option Expr × List Token)
  | 0, _, _ => .error .fuelOut
  | fuel + 1, toks, acc => do
    let (st, rest) ← parseStmt fuel toks
    match st with
    | none => .ok (acc, none, rest)
    | some (.inl s) => parseBlockLoop fuel rest (acc ++ [s])
    | some (.inr e) => do
      let (st2, rest2) ← parseStmt fuel rest
      match st2 with
      | some _ => .error (.pe .expectedSemicolon)
      | none => .ok (acc, some e, rest2)

/-- Parser::parse_block. -/
def parseBlock : Nat → List Token → Except PError (BlockA × List Token)
  | 0, _ => .error .fuelOut
  | fuel + 1, toks => do
    let (_, rest) ← eat .openBrace toks
    let (body, expr, rest1) ← parseBlockLoop fuel rest []
    let (_, rest2) ← eat .closeBrace rest1
    .ok (BlockA.new body expr, rest2)

/-- The argument loop of Parser::function. -/
def parseArgsLoop : Nat → List Token → List (String × TyS) →
    Except PError (List (String × TyS) × List Token)
  | 0, _, _ => .error .fuelOut
  | fuel + 1, toks, acc =>
    match getTok toks with
    | (.comma, rest) => do
      let (name, r1) ← parseIdent rest
      let (_, r2) ← eat .colon r1
      let (ty, r3) ← parseTy r2 958
      parseArgsLoop fuel r3 (acc ++ [(name, ty)])
    | (.closeParen, rest) => .ok (acc, rest)
    | (tok, _) => .error (.pe (.unexpectedToken tok (.anyOf [.comma, .closeParen])))

/-- Parser::function. -/
def parseFunction : Nat → List Token → Except PError (ItemA × List Token)
  | 0, _ => .error .fuelOut
  | fuel + 1, toks => do
    let (name, rest) ← parseIdent toks
    let (_, rest1) ← eat .openParen rest
    let (args, rest2) ←
      match getTok rest1 with
      | (.ident arg, r2) => do
        let (_, r3) ← eat .colon r2
        let (ty, r4) ← parseTy r3 952
        parseArgsLoop fuel r4 [(arg, ty)]
      | (.closeParen, r2) => pure ([], r2)
      | (tok, _) =>
        .error (.pe (.unexpectedToken tok (.anyOf [.ident (""), .closeParen])))
    let (retTy, rest3) ←
      match maybeEat .skinnyArrow rest2 with
      | (some _, r) => parseTy r 984
      | (none, r) => pure (TyS.unit, r)
    let (body, rest4) ← parseBlock fuel rest3
    .ok (.function name retTy args body, rest4)

/-- Parser::item. -/
def parseItem : Nat → List Token → Except PError (ItemA × List Token)
  | 0, _ => .error .fuelOut
  | fuel + 1, toks =>
    match getTok toks with
    | (.keywordFn, rest) => parseFunction fuel rest
    | (.eof, _) => .error (.pe .expectedEof)
    | (tok, _) => .error (.pe (.unexpectedToken tok .item))

end

/-- Canonical fuel for parser runs: the call depth of any parse is bounded well
    below this for every input considered in the theorems below. -/
def parserFuel (toks : List Token) : Nat := 4 * toks.length + 16

def parseExprRun (toks : List Token) : Except PError (Expr × List Token) :=
  parseExpr (parserFuel toks) toks

def maybeParseSingleExprRun (toks : List Token) : Except PError (Option Expr × List Token) :=
  maybeParseSingleExpr (parserFuel toks) toks

def parseItemRun (toks : List Token) : Except PError (ItemA × List Token) :=
  parseItem (parserFuel toks) toks

def isOkE {ε α : Type} : Except ε α → Bool
  | .ok _ => true
  | .error _ => false

/- ===== Type-check errors (src/ast/expr.rs uses of AstError) ===== -/

inductive AstError where
  | couldNotUnify (first : TyS) (second : TyS) (function : String)
  | undefinedVariableName (name : String) (function : String)
  | incorrectNumberOfArguments (passed : Nat) (expected : Nat) (callee : String) (caller : String)
  | functionDoesntExist (callee : String)
  | noActualType (function : String)
  | unopUnsupported (op : Operand) (inner : TyS) (function : String)
  | statementsAfterReturn (function : String)
  | incorrectType (expected : TyS) (found : TyS)
deriving DecidableEq, Repr

/-- Failure outcomes of type checking and translation: a source-level AstError,
    or a Rust panic (assert!, expect, unreachable!, internal compiler error). -/
inductive TcFail where
  | err (e : AstError)
  | ice (msg : String)
deriving DecidableEq, Repr

/- ===== Union-find over inference variables =====
   Modelled from the spec: the UnionFind of the ty module is not under src/.
   Spec section 4.3: each inference id maps to a concrete type or a pointer to
   another id; unify implements the listed rules; actual_ty resolves a type,
   defaulting a surviving InferInt class to SInt(32) and failing on a surviving
   generic Infer.  Spec section 4.4: ids are assigned freshly by the walk. -/

inductive UfEntry where
  | conc (t : TyS)
  | link (j : Nat)
  | anyVar
  | intVar
deriving DecidableEq, Repr

structure UnionFind where
  entries : List UfEntry
deriving Repr

def UnionFind.fresh (uf : UnionFind) (e : UfEntry) : Nat × UnionFind :=
  (uf.entries.length, ⟨uf.entries ++ [e]⟩)

def UnionFind.get (uf : UnionFind) (i : Nat) : UfEntry :=
  uf.entries.getD i .anyVar

def UnionFind.findAux : Nat → UnionFind → Nat → Nat
  | 0, _, i => i
  | fuel + 1, uf, i =>
    match uf.get i with
    | .link j => UnionFind.findAux fuel uf j
    | _ => i

def UnionFind.find (uf : UnionFind) (i : Nat) : Nat :=
  UnionFind.findAux uf.entries.length uf i

def UnionFind.setEntry (uf : UnionFind) (i : Nat) (e : UfEntry) : UnionFind :=
  ⟨uf.entries.set i e⟩

/-- Resolve one level: chase an inference variable to its representative, giving
    either its bound concrete type or its (possibly integer-constrained) root. -/
def UnionFind.resolve (uf : UnionFind) (t : TyS) : TyS :=
  match t with
  | .infer (some i) | .inferInt (some i) =>
    let r := uf.find i
    match uf.get r with
    | .conc c => c
    | .intVar => .inferInt (some r)
    | _ => .infer (some r)
  | t => t

def tySize : TyS → Nat
  | .reference inner => tySize inner + 1
  | _ => 1

/-- The unify rules of spec section 4.3.  The fuel only bounds recursion through
    bindings and Reference nesting and is never exhausted for the finite types
    arising below. -/
def UnionFind.unifyF : Nat → UnionFind → TyS → TyS → Option UnionFind
  | 0, _, _, _ => none
  | fuel + 1, uf, t1, t2 =>
    let a := uf.resolve t1
    let b := uf.resolve t2
    if a = b then some uf
    else
      match a, b with
      | .diverging, _ => some uf
      | _, .diverging => some uf
      | .infer (some i), .infer (some j) => some (uf.setEntry i (.link j))
      | .infer (some i), .inferInt (some j) => some (uf.setEntry i (.link j))
      | .inferInt (some i), .infer (some j) => some (uf.setEntry j (.link i))
      | .inferInt (some i), .inferInt (some j) => some (uf.setEntry i (.link j))
      | .infer (some i), b => some (uf.setEntry i (.conc b))
      | a, .infer (some j) => some (uf.setEntry j (.conc a))
      | .inferInt (some i), .sint w => some (uf.setEntry i (.conc (.sint w)))
      | .inferInt (some i), .uint w => some (uf.setEntry i (.conc (.uint w)))
      | .sint w, .inferInt (some j) => some (uf.setEntry j (.conc (.sint w)))
      | .uint w, .inferInt (some j) => some (uf.setEntry j (.conc (.uint w)))
      | .reference a1, .reference b1 => UnionFind.unifyF fuel uf a1 b1
      | _, _ => none

def UnionFind.unify (uf : UnionFind) (a b : TyS) : Option UnionFind :=
  UnionFind.unifyF (uf.entries.length * 4 + tySize a + tySize b + 4) uf a b

/-- actual_ty of spec section 4.3: resolve to a concrete type, defaulting a
    surviving integer class to SInt(32); a surviving generic Infer gives none. -/
def UnionFind.actualTyF : Nat → UnionFind → TyS → Option TyS
  | 0, _, _ => none
  | fuel + 1, uf, t =>
    match t with
    | .infer (some i) =>
      match uf.get (uf.find i) with
      | .conc c => UnionFind.actualTyF fuel uf c
      | .intVar => some (.sint .i32)
      | _ => none
    | .infer none => none
    | .inferInt (some i) =>
      match uf.get (uf.find i) with
      | .conc c => UnionFind.actualTyF fuel uf c
      | _ => some (.sint .i32)
    | .inferInt none => some (.sint .i32)
    | .reference inner => (UnionFind.actualTyF fuel uf inner).map .reference
    | t => some t

def UnionFind.actualTy (uf : UnionFind) (t : TyS) : Option TyS :=
  UnionFind.actualTyF (uf.entries.length * 4 + tySize t + 4) uf t

/-- generate_inference_id (spec section 4.4: each node is assigned a fresh
    inference id unless it already has one or has a known type). -/
def TyS.generateInferenceId (t : TyS) (uf : UnionFind) : TyS × UnionFind :=
  match t with
  | .infer none =>
    let (i, uf2) := uf.fresh .anyVar
    (.infer (some i), uf2)
  | .inferInt none =>
    let (i, uf2) := uf.fresh .intVar
    (.inferInt (some i), uf2)
  | t => (t, uf)

/- ===== Function signatures and checking context ===== -/

/-- ty::Function (callee signatures; shape fixed by f.input()/f.output() uses). -/
structure FnSig where
  input : List TyS
  output : TyS
deriving Repr

/-- The per-function context of src/ast/expr.rs: name, argument map
    name -> (index, type), and the declared return type. -/
structure FunctionA where
  name : String
  args : List (String × Nat × TyS)
  retTy : TyS
deriving Repr

def FunctionA.findArg (f : FunctionA) (n : String) : Option (Nat × TyS) :=
  (f.args.find? (fun p => p.1 = n)).map (fun p => p.2)

def lookupFn (fns : List (String × FnSig)) (n : String) : Option FnSig :=
  (fns.find? (fun p => p.1 = n)).map (fun p => p.2)

/-- The mutable checking state threaded by unify_type: the union-find and the
    variables map (a HashMap in the source; consing shadows like insert). -/
structure TcSt where
  uf : UnionFind
  vars : List (String × TyS)

def lookupVar (vars : List (String × TyS)) (n : String) : Option TyS :=
  (vars.find? (fun p => p.1 = n)).map (fun p => p.2)

/- ===== Sizes (termination measures for the AST walks) ===== -/

mutual
def exprSize : Expr → Nat
  | .mk k _ => kindSize k + 1

def kindSize : ExprKind → Nat
  | .call _ args => exprListSize args + 1
  | .ifExpr c t e => exprSize c + blockSize t + blockSize e + 1
  | .blockExpr b => blockSize b + 1
  | .binop op l r => exprSize l + exprSize r + (if op = .andAnd ∨ op = .orOr then 12 else 1)
  | .pos e => exprSize e + 1
  | .neg e => exprSize e + 1
  | .not e => exprSize e + 1
  | .ref e => exprSize e + 1
  | .deref e => exprSize e + 1
  | .ret e => exprSize e + 1
  | .var _ => 1
  | .intLiteral _ => 1
  | .boolLiteral _ => 1
  | .unitLiteral => 1
  | .assign _ src => exprSize src + 1

def exprListSize : List Expr → Nat
  | [] => 0
  | e :: r => exprSize e + exprListSize r + 1

def blockSize : BlockA → Nat
  | .mk stmts e => stmtListSize stmts + optExprSize e + 1

def optExprSize : Option Expr → Nat
  | none => 0
  | some e => exprSize e + 1

def stmtListSize : List Stmt → Nat
  | [] => 0
  | s :: r => stmtSize s + stmtListSize r + 1

def stmtSize : Stmt → Nat
  | .letStmt _ _ v => optExprSize v + 1
  | .exprStmt e => exprSize e + 1
end

/- ===== Phase 1: unify_type / typeck_block (src/ast/expr.rs) ===== -/

mutual

/-- Expr::unify_type.  Returns the expression with its updated ty together with
    the updated state (the source mutates both in place). -/
def unifyType (e : Expr) (toUnify : TyS) (st : TcSt) (f : FunctionA)
    (fns : List (String × FnSig)) : Except TcFail (Expr × TcSt) :=
  match e with
  | .mk kind ty0 =>
    let (sty, uf1) := ty0.generateInferenceId st.uf
    let st := { st with uf := uf1 }
    match kind with
    | .intLiteral v =>
      match st.uf.unify sty toUnify with
      | some uf2 => .ok (.mk (.intLiteral v) sty, { st with uf := uf2 })
      | none => .error (.err (.couldNotUnify sty toUnify f.name))
    | .boolLiteral b =>
      match st.uf.unify sty toUnify with
      | some uf2 => .ok (.mk (.boolLiteral b) sty, { st with uf := uf2 })
      | none => .error (.err (.couldNotUnify sty toUnify f.name))
    | .unitLiteral =>
      match st.uf.unify sty toUnify with
      | some uf2 => .ok (.mk .unitLiteral sty, { st with uf := uf2 })
      | none => .error (.err (.couldNotUnify sty toUnify f.name))
    | .var name =>
      match lookupVar st.vars name with
      | some vty =>
        match st.uf.unify vty toUnify with
        | some uf2 => .ok (.mk (.var name) vty, { st with uf := uf2 })
        | none => .error (.err (.couldNotUnify vty toUnify f.name))
      | none =>
        match f.findArg name with
        | some (_, aty) =>
          match st.uf.unify aty toUnify with
          | some uf2 => .ok (.mk (.var name) aty, { st with uf := uf2 })
          | none => .error (.err (.couldNotUnify aty toUnify f.name))
        | none => .error (.err (.undefinedVariableName name f.name))
    | .pos inner => do
      let (inner2, st2) ← unifyType inner toUnify st f fns
      match st2.uf.unify sty inner2.ty with
      | some uf2 => .ok (.mk (.pos inner2) sty, { st2 with uf := uf2 })
      | none => .error (.err (.couldNotUnify sty inner2.ty f.name))
    | .neg inner => do
      let (inner2, st2) ← unifyType inner toUnify st f fns
      match st2.uf.unify sty inner2.ty with
      | some uf2 => .ok (.mk (.neg inner2) sty, { st2 with uf := uf2 })
      | none => .error (.err (.couldNotUnify sty inner2.ty f.name))
    | .not inner => do
      let (inner2, st2) ← unifyType inner toUnify st f fns
      match st2.uf.unify sty inner2.ty with
      | some uf2 => .ok (.mk (.not inner2) sty, { st2 with uf := uf2 })
      | none => .error (.err (.couldNotUnify sty inner2.ty f.name))
    | .ref inner =>
      match toUnify with
      | .reference innerExpected => do
        let (inner2, st2) ← unifyType inner innerExpected st f fns
        match st2.uf.unify sty (.reference inner2.ty) with
        | some uf2 => .ok (.mk (.ref inner2) sty, { st2 with uf := uf2 })
        | none => .error (.ice ("These should never be different"))
      | _ => .error (.err (.couldNotUnify toUnify inner.ty f.name))
    | .binop op lhs (.mk rkind rty0) =>
      match op with
      | .mul | .div | .rem | .plus | .minus | .shl | .shr | .and | .xor | .or => do
        let (lhs2, st1) ← unifyType lhs sty st f fns
        let (rhs2, st2) ← unifyType (.mk rkind rty0) lhs2.ty st1 f fns
        match st2.uf.unify sty toUnify with
        | some uf2 => .ok (.mk (.binop op lhs2 rhs2) sty, { st2 with uf := uf2 })
        | none => .error (.err (.couldNotUnify sty toUnify f.name))
      | .equalsEquals | .notEquals | .lessThan | .lessThanEquals
      | .greaterThan | .greaterThanEquals => do
        let (rty, uf2) := rty0.generateInferenceId st.uf
        let st := { st with uf := uf2 }
        let (lhs2, st1) ← unifyType lhs rty st f fns
        let (rhs2, st2) ← unifyType (.mk rkind rty) lhs2.ty st1 f fns
        match st2.uf.unify .bool toUnify with
        | some uf3 => .ok (.mk (.binop op lhs2 rhs2) .bool, { st2 with uf := uf3 })
        | none => .error (.err (.couldNotUnify .bool toUnify f.name))
      | .andAnd | .orOr => do
        let (lhs2, st1) ← unifyType lhs .bool st f fns
        let (rhs2, st2) ← unifyType (.mk rkind rty0) .bool st1 f fns
        match st2.uf.unify .bool toUnify with
        | some uf3 => .ok (.mk (.binop op lhs2 rhs2) .bool, { st2 with uf := uf3 })
        | none => .error (.err (.couldNotUnify toUnify .bool f.name))
      | .not => .error (.ice ("ICE: Not is not a binop"))
    | .call callee args =>
      match lookupFn fns callee with
      | some fsig =>
        if fsig.input.length ≠ args.length then
          .error (.err (.incorrectNumberOfArguments args.length fsig.input.length callee f.name))
        else do
          let (args2, st2) ← unifyTypeArgs fsig.input args st f fns
          match st2.uf.unify fsig.output toUnify with
          | some uf2 => .ok (.mk (.call callee args2) fsig.output, { st2 with uf := uf2 })
          | none => .error (.err (.couldNotUnify fsig.output toUnify f.name))
      | none => .error (.err (.functionDoesntExist callee))
    | .ifExpr cond thenV elseV => do
      let (cond2, st1) ← unifyType cond .bool st f fns
      let (thenV2, st2) ← typeckBlock thenV toUnify st1 f fns
      let (elseV2, st3) ← typeckBlock elseV toUnify st2 f fns
      match st3.uf.unify sty toUnify with
      | some uf2 => .ok (.mk (.ifExpr cond2 thenV2 elseV2) sty, { st3 with uf := uf2 })
      | none => .error (.err (.couldNotUnify sty toUnify f.name))
    | .blockExpr blk => do
      let (blk2, st1) ← typeckBlock blk toUnify st f fns
      match st1.uf.unify sty toUnify with
      | some uf2 => .ok (.mk (.blockExpr blk2) sty, { st1 with uf := uf2 })
      | none => .error (.err (.couldNotUnify sty toUnify f.name))
    | .ret inner => do
      let (inner2, st1) ← unifyType inner f.retTy st f fns
      .ok (.mk (.ret inner2) .diverging, st1)
    | .assign dst src =>
      match lookupVar st.vars dst with
      | some dty => do
        let (src2, st1) ← unifyType src dty st f fns
        match st1.uf.unify sty toUnify with
        | some uf2 => .ok (.mk (.assign dst src2) sty, { st1 with uf := uf2 })
        | none => .error (.err (.couldNotUnify .unit toUnify f.name))
      | none => .error (.err (.undefinedVariableName dst f.name))
    | .deref _ =>
      .error (.ice ("deref has no rule in src/ast/expr.rs; see spec section 9"))
termination_by exprSize e
decreasing_by
  all_goals simp [exprSize, kindSize, exprListSize, blockSize, optExprSize, stmtListSize, stmtSize]
  all_goals omega

/-- The argument loop of the Call case of unify_type. -/
def unifyTypeArgs (tys : List TyS) (args : List Expr) (st : TcSt) (f : FunctionA)
    (fns : List (String × FnSig)) : Except TcFail (List Expr × TcSt) :=
  match tys, args with
  | ty :: tys2, arg :: args2 => do
    let (arg2, st1) ← unifyType arg ty st f fns
    let (rest, st2) ← unifyTypeArgs tys2 args2 st1 f fns
    .ok (arg2 :: rest, st2)
  | _, _ => .ok ([], st)
termination_by exprListSize args + 1
decreasing_by
  all_goals simp [exprSize, kindSize, exprListSize, blockSize, optExprSize, stmtListSize, stmtSize]
  all_goals omega

/-- The statement loop of Expr::typeck_block, with the live flag; processing
    stops at a bare Return statement, leaving the remaining statements in place
    untouched (the source breaks out of the loop). -/
def typeckStmts (stmts : List Stmt) (st : TcSt) (f : FunctionA)
    (fns : List (String × FnSig)) : Except TcFail (List Stmt × Bool × TcSt) :=
  match stmts with
  | [] => .ok ([], true, st)
  | stmt :: rest =>
    match stmt with
    | .letStmt name ty value => do
      let (ty2, uf2) := ty.generateInferenceId st.uf
      let st2 := { st with uf := uf2 }
      let (value2, st3) ←
        match value with
        | some v => do
          let (v2, st3) ← unifyType v ty2 st2 f fns
          pure (some v2, st3)
        | none => pure (none, st2)
      let st4 := { st3 with vars := (name, ty2) :: st3.vars }
      let (restOut, live, st5) ← typeckStmts rest st4 f fns
      .ok (.letStmt name ty2 value2 :: restOut, live, st5)
    | .exprStmt (.mk (.ret inner) ty) => do
      let (e2, st2) ← unifyType (.mk (.ret inner) ty) .diverging st f fns
      .ok (.exprStmt e2 :: rest, false, st2)
    | .exprStmt (.mk k ty) => do
      let (ty0, uf2) := (TyS.infer none).generateInferenceId st.uf
      let (e2, st2) ← unifyType (.mk k ty) ty0 { st with uf := uf2 } f fns
      let (restOut, live, st3) ← typeckStmts rest st2 f fns
      .ok (.exprStmt e2 :: restOut, live, st3)
termination_by stmtListSize stmts + 1
decreasing_by
  all_goals simp [exprSize, kindSize, exprListSize, blockSize, optExprSize, stmtListSize, stmtSize]
  all_goals omega

/-- Expr::typeck_block. -/
def typeckBlock (b : BlockA) (toUnify : TyS) (st : TcSt) (f : FunctionA)
    (fns : List (String × FnSig)) : Except TcFail (BlockA × TcSt) :=
  match b with
  | .mk stmts ex => do
    let (stmts2, live, st1) ← typeckStmts stmts st f fns
    if live then
      match ex with
      | some e => do
        let (e2, st2) ← unifyType e toUnify st1 f fns
        .ok (.mk stmts2 (some e2), st2)
      | none =>
        match st1.uf.unify toUnify .unit with
        | some uf2 => .ok (.mk stmts2 none, { st1 with uf := uf2 })
        | none => .error (.err (.couldNotUnify .unit toUnify f.name))
    else
      .ok (.mk stmts2 ex, st1)
termination_by blockSize b + 1
decreasing_by
  all_goals simp [exprSize, kindSize, exprListSize, blockSize, optExprSize, stmtListSize, stmtSize]
  all_goals omega

end

/- ===== Phase 2: finalize_type / finalize_block_ty (src/ast/expr.rs) ===== -/

mutual

/-- Expr::finalize_type.  The union-find is semantically read-only here (only
    path compression mutates it in the source), so it is passed by value. -/
def finalizeType (e : Expr) (uf : UnionFind) (f : FunctionA) : Except TcFail Expr :=
  match e with
  | .mk kind ty0 =>
    match kind with
    | .intLiteral v =>
      match uf.actualTy ty0 with
      | some t => .ok (.mk (.intLiteral v) t)
      | none => .error (.err (.noActualType f.name))
    | .boolLiteral b =>
      match uf.actualTy ty0 with
      | some t => .ok (.mk (.boolLiteral b) t)
      | none => .error (.err (.noActualType f.name))
    | .unitLiteral =>
      match uf.actualTy ty0 with
      | some t => .ok (.mk .unitLiteral t)
      | none => .error (.err (.noActualType f.name))
    | .var name =>
      match uf.actualTy ty0 with
      | some t => .ok (.mk (.var name) t)
      | none => .error (.err (.noActualType f.name))
    | .pos inner =>
      match uf.actualTy ty0 with
      | some t => do
        let inner2 ← finalizeType inner uf f
        if t = inner2.ty then
          match t with
          | .sint _ => .ok (.mk (.pos inner2) t)
          | .uint _ => .ok (.mk (.pos inner2) t)
          | _ => .error (.err (.unopUnsupported .plus t f.name))
        else .error (.ice ("assert failed: self.ty == inner.ty"))
      | none => .error (.err (.noActualType f.name))
    | .neg inner =>
      match uf.actualTy ty0 with
      | some t => do
        let inner2 ← finalizeType inner uf f
        if t = inner2.ty then
          match t with
          | .sint _ => .ok (.mk (.neg inner2) t)
          | _ => .error (.err (.unopUnsupported .minus t f.name))
        else .error (.ice ("assert failed: self.ty == inner.ty"))
      | none => .error (.err (.noActualType f.name))
    | .not inner =>
      match uf.actualTy ty0 with
      | some t => do
        let inner2 ← finalizeType inner uf f
        if t = inner2.ty then
          match t with
          | .sint _ => .ok (.mk (.not inner2) t)
          | .uint _ => .ok (.mk (.not inner2) t)
          | .bool => .ok (.mk (.not inner2) t)
          | _ => .error (.err (.unopUnsupported .not t f.name))
        else .error (.ice ("assert failed: self.ty == inner.ty"))
      | none => .error (.err (.noActualType f.name))
    | .ref inner =>
      match uf.actualTy ty0 with
      | some t => do
        let inner2 ← finalizeType inner uf f
        if t = .reference inner2.ty then .ok (.mk (.ref inner2) t)
        else .error (.ice ("assert failed: self: T, inner: &T"))
      | none => .error (.err (.noActualType f.name))
    | .binop op lhs rhs =>
      match uf.actualTy ty0 with
      | some t => do
        let lhs2 ← finalizeType lhs uf f
        let rhs2 ← finalizeType rhs uf f
        .ok (.mk (.binop op lhs2 rhs2) t)
      | none => .error (.err (.noActualType f.name))
    | .call callee args =>
      match uf.actualTy ty0 with
      | some t => do
        let args2 ← finalizeArgs args uf f
        .ok (.mk (.call callee args2) t)
      | none => .error (.err (.noActualType f.name))
    | .ifExpr cond thenV elseV =>
      match uf.actualTy ty0 with
      | some t => do
        let cond2 ← finalizeType cond uf f
        let thenV2 ← finalizeBlockTy thenV uf f
        let elseV2 ← finalizeBlockTy elseV uf f
        .ok (.mk (.ifExpr cond2 thenV2 elseV2) t)
      | none => .error (.err (.noActualType f.name))
    | .blockExpr blk =>
      match uf.actualTy ty0 with
      | some t => do
        let blk2 ← finalizeBlockTy blk uf f
        .ok (.mk (.blockExpr blk2) t)
      | none => .error (.err (.noActualType f.name))
    | .ret inner =>
      match uf.actualTy ty0 with
      | some .diverging => do
        let inner2 ← finalizeType inner uf f
        .ok (.mk (.ret inner2) .diverging)
      | some _ => .error (.ice ("ICE: return is not typed Diverging"))
      | none => .error (.ice ("ICE: return with no type"))
    | .assign dst src => do
      let src2 ← finalizeType src uf f
      .ok (.mk (.assign dst src2) ty0)
    | .deref _ =>
      .error (.ice ("deref has no rule in src/ast/expr.rs; see spec section 9"))
termination_by exprSize e
decreasing_by
  all_goals simp [exprSize, kindSize, exprListSize, blockSize, optExprSize, stmtListSize, stmtSize]
  all_goals omega

/-- The argument loop of the Call case of finalize_type. -/
def finalizeArgs (args : List Expr) (uf : UnionFind) (f : FunctionA) :
    Except TcFail (List Expr) :=
  match args with
  | [] => .ok []
  | a :: rest => do
    let a2 ← finalizeType a uf f
    let rest2 ← finalizeArgs rest uf f
    .ok (a2 :: rest2)
termination_by exprListSize args + 1
decreasing_by
  all_goals simp [exprSize, kindSize, exprListSize, blockSize, optExprSize, stmtListSize, stmtSize]
  all_goals omega

/-- The statement loop of Expr::finalize_block_ty: the live flag is cleared by a
    bare Return statement, and any statement reached with the flag cleared
    raises StatementsAfterReturn. -/
def finalizeStmts (stmts : List Stmt) (live : Bool) (uf : UnionFind) (f : FunctionA) :
    Except TcFail (List Stmt × Bool) :=
  match stmts with
  | [] => .ok ([], live)
  | stmt :: rest =>
    if live = false then .error (.err (.statementsAfterReturn f.name))
    else
      match stmt with
      | .letStmt name ty value => do
        let ty2 ←
          match uf.actualTy ty with
          | some t => pure t
          | none => Except.error (.err (.noActualType f.name))
        let value2 ←
          match value with
          | some v => do
            let v2 ← finalizeType v uf f
            pure (some v2)
          | none => pure none
        let (restOut, liveOut) ← finalizeStmts rest true uf f
        .ok (.letStmt name ty2 value2 :: restOut, liveOut)
      | .exprStmt (.mk (.ret inner) ty) => do
        let e2 ← finalizeType (.mk (.ret inner) ty) uf f
        let (restOut, liveOut) ← finalizeStmts rest false uf f
        .ok (.exprStmt e2 :: restOut, liveOut)
      | .exprStmt (.mk k ty) => do
        let e2 ← finalizeType (.mk k ty) uf f
        let (restOut, liveOut) ← finalizeStmts rest live uf f
        .ok (.exprStmt e2 :: restOut, liveOut)
termination_by stmtListSize stmts + 1
decreasing_by
  all_goals simp [exprSize, kindSize, exprListSize, blockSize, optExprSize, stmtListSize, stmtSize]
  all_goals omega

/-- Expr::finalize_block_ty. -/
def finalizeBlockTy (b : BlockA) (uf : UnionFind) (f : FunctionA) : Except TcFail BlockA :=
  match b with
  | .mk stmts ex => do
    let (stmts2, live) ← finalizeStmts stmts true uf f
    match ex with
    | some e =>
      if live = false then .error (.err (.statementsAfterReturn f.name))
      else do
        let e2 ← finalizeType e uf f
        .ok (.mk stmts2 (some e2))
    | none => .ok (.mk stmts2 none)
termination_by blockSize b + 1
decreasing_by
  all_goals simp [exprSize, kindSize, exprListSize, blockSize, optExprSize, stmtListSize, stmtSize]
  all_goals omega

end

/- ===== MIR (mid-level IR) =====
   Modelled from the spec: the mir module is referenced from src/ast/expr.rs but
   is not under src/.  Spec sections 3 and 4.5: a per-function CFG of blocks of
   (Lvalue <- Rvalue) assignments with one terminator; the builder exposes
   new_local/new_temp/write_to_var/write_to_tmp/finish/early_ret/if_else and
   value constructors; if_else allocates then/else/join blocks and a join temp,
   wiring finish of the arms to assign the temp and jump to the join. -/

inductive MirValue where
  | constInt (n : Nat) (ty : TyS)
  | constBool (b : Bool)
  | constUnit
  | localV (idx : Nat)
  | paramV (n : Nat)
  | tempV (idx : Nat)
deriving DecidableEq, Repr

inductive MirLvalue where
  | localL (n : Nat)
  | tempL (n : Nat)
  | paramL (n : Nat)
  | retL
deriving DecidableEq, Repr

inductive MirRvalue where
  | use (v : MirValue)
  | binOp (op : Operand) (a : MirValue) (b : MirValue)
  | unOp (op : Operand) (v : MirValue)
  | callR (callee : String) (args : List MirValue)
  | refR (v : MirValue)
deriving DecidableEq, Repr

structure MirStmt where
  lhs : MirLvalue
  rhs : MirRvalue
deriving DecidableEq, Repr

inductive MirTerm where
  | goto (b : Nat)
  | condbr (cond : MirValue) (thenB : Nat) (elseB : Nat)
  | retT
deriving DecidableEq, Repr

/-- A basic block: statements, at most one terminator, and the join wiring
    (join temp and join block) installed by if_else, inherited by join blocks. -/
structure MirBlockData where
  stmts : List MirStmt
  term : Option MirTerm
  dest : Option (Nat × Nat)
deriving DecidableEq, Repr

structure MirFunction where
  retTy : TyS
  paramTys : List TyS
  locals : List TyS
  temps : List TyS
  blocks : List MirBlockData
deriving DecidableEq, Repr

def MirFunction.newLocal (f : MirFunction) (ty : TyS) : Nat × MirFunction :=
  (f.locals.length, { f with locals := f.locals ++ [ty] })

def MirFunction.newTmp (f : MirFunction) (ty : TyS) : Nat × MirFunction :=
  (f.temps.length, { f with temps := f.temps ++ [ty] })

def MirFunction.getBlock (f : MirFunction) (b : Nat) : MirBlockData :=
  f.blocks.getD b ⟨[], none, none⟩

def MirFunction.modifyBlock (f : MirFunction) (b : Nat) (g : MirBlockData → MirBlockData) :
    MirFunction :=
  { f with blocks := f.blocks.set b (g (f.getBlock b)) }

def MirFunction.addStmt (f : MirFunction) (b : Nat) (s : MirStmt) : MirFunction :=
  f.modifyBlock b (fun bd => { bd with stmts := bd.stmts ++ [s] })

def MirFunction.setTerm (f : MirFunction) (b : Nat) (t : MirTerm) : MirFunction :=
  f.modifyBlock b (fun bd => { bd with term := some t })

/-- The type of a value, for allocating result temporaries. -/
def MirFunction.valueTy (f : MirFunction) : MirValue → TyS
  | .constInt _ ty => ty
  | .constBool _ => .bool
  | .constUnit => .unit
  | .localV i => f.locals.getD i .unit
  | .paramV i => f.paramTys.getD i .unit
  | .tempV i => f.temps.getD i .unit

/-- write_to_tmp: allocate a fresh temp of the given type, assign, return it. -/
def MirFunction.writeToTmp (f : MirFunction) (b : Nat) (rv : MirRvalue) (ty : TyS) :
    MirValue × MirFunction :=
  let (i, f1) := f.newTmp ty
  (.tempV i, f1.addStmt b ⟨.tempL i, rv⟩)

/-- write_to_var: store a value into a local or parameter slot. -/
def MirFunction.writeToVar (f : MirFunction) (b : Nat) (lv : MirLvalue) (v : MirValue) :
    MirFunction :=
  f.addStmt b ⟨lv, .use v⟩

/-- The unary-op value constructors (pos/neg/not). -/
def mirUnop (op : Operand) (v : MirValue) (f : MirFunction) (b : Nat) :
    MirValue × MirFunction :=
  f.writeToTmp b (.unOp op v) (f.valueTy v)

/-- The ref_ value constructor. -/
def mirRef (v : MirValue) (f : MirFunction) (b : Nat) : MirValue × MirFunction :=
  f.writeToTmp b (.refR v) (.reference (f.valueTy v))

/-- The binary-op value constructors; comparisons produce Bool, the others the
    operand type. -/
def mirBinop (op : Operand) (l r : MirValue) (f : MirFunction) (b : Nat) :
    MirValue × MirFunction :=
  let resTy :=
    match op with
    | .equalsEquals | .notEquals | .lessThan | .lessThanEquals
    | .greaterThan | .greaterThanEquals => TyS.bool
    | _ => f.valueTy l
  f.writeToTmp b (.binOp op l r) resTy

/-- The call value constructor; the result type comes from the callee signature. -/
def mirCall (callee : String) (args : List MirValue) (f : MirFunction) (b : Nat)
    (fns : List (String × FnSig)) : MirValue × MirFunction :=
  let outTy :=
    match lookupFn fns callee with
    | some s => s.output
    | none => TyS.unit
  f.writeToTmp b (.callR callee args) outTy

/-- if_else: allocate a join temp and then/else/join blocks, terminate the
    current block with a conditional branch; the arms are wired to write the
    temp and jump to the join, and the join inherits the current wiring. -/
def MirFunction.ifElse (f : MirFunction) (cur : Nat) (resultTy : TyS) (cond : MirValue) :
    Nat × Nat × Nat × MirValue × MirFunction :=
  let (t, f1) := f.newTmp resultTy
  let curDest := (f1.getBlock cur).dest
  let thenId := f1.blocks.length
  let elseId := thenId + 1
  let joinId := thenId + 2
  let f2 := { f1 with blocks := f1.blocks ++
      ([⟨[], none, some (t, joinId)⟩, ⟨[], none, some (t, joinId)⟩,
        ⟨[], none, curDest⟩] : List MirBlockData) }
  let f3 := f2.setTerm cur (.condbr cond thenId elseId)
  (thenId, elseId, joinId, .tempV t, f3)

/-- finish: make the block's result the given value (write the wired join temp
    and jump to the join; an unwired block writes the return slot and returns). -/
def MirFunction.finish (f : MirFunction) (b : Nat) (v : MirValue) : MirFunction :=
  match (f.getBlock b).dest with
  | some (t, j) => (f.addStmt b ⟨.tempL t, .use v⟩).setTerm b (.goto j)
  | none => (f.addStmt b ⟨.retL, .use v⟩).setTerm b .retT

/-- early_ret: write the return slot and set the Return terminator. -/
def MirFunction.earlyRet (f : MirFunction) (b : Nat) (v : MirValue) : MirFunction :=
  (f.addStmt b ⟨.retL, .use v⟩).setTerm b .retT

/-- ty::Type::is_final_type (spec section 3: after finalization no Infer form
    remains; Diverging and all concrete types are final). -/
def TyS.isFinalType : TyS → Bool
  | .infer _ => false
  | .inferInt _ => false
  | .reference inner => inner.isFinalType
  | _ => true

/- ===== AST to MIR translation (src/ast/expr.rs, impl Expr: translate) ===== -/

/-- The translator state: the function being built and the name-to-local map. -/
structure TransSt where
  raw : MirFunction
  locals : List (String × Nat)
deriving DecidableEq, Repr

def lookupLocal (locals : List (String × Nat)) (n : String) : Option Nat :=
  (locals.find? (fun p => p.1 = n)).map (fun p => p.2)

mutual

/-- Expr::translate.  Returns the produced value, the continuation block (none
    when this path diverged), and the updated state.  The leading check models
    the source's assert!(self.ty.is_final_type()). -/
def translateExpr (e : Expr) (fc : FunctionA) (fns : List (String × FnSig)) (blk : Nat)
    (st : TransSt) : Except TcFail (MirValue × Option Nat × TransSt) :=
  match e with
  | .mk kind ty =>
    if ty.isFinalType = false then .error (.ice ("assert failed: not final type"))
    else
      match kind with
      | .intLiteral n => .ok (.constInt n ty, some blk, st)
      | .boolLiteral b => .ok (.constBool b, some blk, st)
      | .unitLiteral => .ok (.constUnit, some blk, st)
      | .var name =>
        match lookupLocal st.locals name with
        | some v => .ok (.localV v, some blk, st)
        | none =>
          match fc.findArg name with
          | some (num, _) => .ok (.paramV num, some blk, st)
          | none => .error (.ice ("ICE: unknown variable"))
      | .pos e1 => do
        let (inner, cont, st1) ← translateExpr e1 fc fns blk st
        match cont with
        | some b2 =>
          let (v, raw2) := mirUnop .plus inner st1.raw b2
          .ok (v, some b2, { st1 with raw := raw2 })
        | none => .ok (.constUnit, none, st1)
      | .neg e1 => do
        let (inner, cont, st1) ← translateExpr e1 fc fns blk st
        match cont with
        | some b2 =>
          let (v, raw2) := mirUnop .minus inner st1.raw b2
          .ok (v, some b2, { st1 with raw := raw2 })
        | none => .ok (.constUnit, none, st1)
      | .not e1 => do
        let (inner, cont, st1) ← translateExpr e1 fc fns blk st
        match cont with
        | some b2 =>
          let (v, raw2) := mirUnop .not inner st1.raw b2
          .ok (v, some b2, { st1 with raw := raw2 })
        | none => .ok (.constUnit, none, st1)
      | .ref e1 => do
        let (inner, cont, st1) ← translateExpr e1 fc fns blk st
        match cont with
        | some b2 =>
          let (v, raw2) := mirRef inner st1.raw b2
          .ok (v, some b2, { st1 with raw := raw2 })
        | none => .ok (.constUnit, none, st1)
      | .binop .andAnd lhs rhs =>
        translateExpr (.mk (.ifExpr (Expr.notE lhs) (BlockA.exprOnly (Expr.boolLit false))
          (BlockA.exprOnly rhs)) ty) fc fns blk st
      | .binop .orOr lhs rhs =>
        translateExpr (.mk (.ifExpr lhs (BlockA.exprOnly (Expr.boolLit true))
          (BlockA.exprOnly rhs)) ty) fc fns blk st
      | .binop op lhs rhs => do
        let (lv, cont1, st1) ← translateExpr lhs fc fns blk st
        match cont1 with
        | none => .ok (lv, none, st1)
        | some b1 => do
          let (rv, cont2, st2) ← translateExpr rhs fc fns b1 st1
          match cont2 with
          | none => .ok (rv, none, st2)
          | some b2 =>
            let (v, raw3) := mirBinop op lv rv st2.raw b2
            .ok (v, some b2, { st2 with raw := raw3 })
      | .call callee args => do
        let (argvs, cont, st1) ← translateArgs args fc fns blk st
        match cont with
        | none => .ok (.constUnit, none, st1)
        | some b1 =>
          let (v, raw2) := mirCall callee argvs st1.raw b1 fns
          .ok (v, some b1, { st1 with raw := raw2 })
      | .ifExpr condition thenV elseV => do
        let (cond, cont, st1) ← translateExpr condition fc fns blk st
        match cont with
        | none => .ok (.constUnit, none, st1)
        | some b1 => do
          let (thenId, elseId, joinId, res, raw2) := st1.raw.ifElse b1 ty cond
          let st2 := { st1 with raw := raw2 }
          let (tval, thenCont, st3) ← translateBlock thenV fc fns thenId st2
          let st4 :=
            match thenCont with
            | some tb => { st3 with raw := st3.raw.finish tb tval }
            | none => st3
          let (eval2, elseCont, st5) ← translateBlock elseV fc fns elseId st4
          let st6 :=
            match elseCont with
            | some eb => { st5 with raw := st5.raw.finish eb eval2 }
            | none => st5
          .ok (res, some joinId, st6)
      | .ret e1 => do
        let (v, cont, st1) ← translateExpr e1 fc fns blk st
        let st2 :=
          match cont with
          | some b1 => { st1 with raw := st1.raw.earlyRet b1 v }
          | none => st1
        .ok (.constUnit, none, st2)
      | .assign dst src =>
        let lvOpt :=
          match lookupLocal st.locals dst with
          | some v => some (MirLvalue.localL v)
          | none =>
            match fc.findArg dst with
            | some (num, _) => some (MirLvalue.paramL num)
            | none => none
        match lvOpt with
        | none => .error (.ice ("ICE: unknown variable"))
        | some lv => do
          let (v, cont, st1) ← translateExpr src fc fns blk st
          let st2 :=
            match cont with
            | some b1 => { st1 with raw := st1.raw.writeToVar b1 lv v }
            | none => st1
          .ok (.constUnit, cont, st2)
      | .blockExpr body => translateBlock body fc fns blk st
      | .deref _ => .error (.ice ("deref has no rule in src/ast/expr.rs"))
termination_by exprSize e
decreasing_by
  all_goals simp [exprSize, kindSize, exprListSize, blockSize, optExprSize, stmtListSize,
    stmtSize, Expr.notE, BlockA.exprOnly, Expr.boolLit]
  all_goals omega

/-- The argument loop of the Call case of translate (left-to-right, aborting on
    the first diverging argument). -/
def translateArgs (args : List Expr) (fc : FunctionA) (fns : List (String × FnSig))
    (blk : Nat) (st : TransSt) : Except TcFail (List MirValue × Option Nat × TransSt) :=
  match args with
  | [] => .ok ([], some blk, st)
  | a :: rest => do
    let (v, cont, st1) ← translateExpr a fc fns blk st
    match cont with
    | none => .ok ([], none, st1)
    | some b1 => do
      let (vs, cont2, st2) ← translateArgs rest fc fns b1 st1
      match cont2 with
      | none => .ok ([], none, st2)
      | some b2 => .ok (v :: vs, some b2, st2)
termination_by exprListSize args + 1
decreasing_by
  all_goals simp [exprSize, kindSize, exprListSize, blockSize, optExprSize, stmtListSize,
    stmtSize]
  all_goals omega

/-- The statement loop of Expr::translate_block: the continuation is threaded
    through the statements; once it is none the loop breaks, leaving the
    remaining statements untranslated and the state unchanged. -/
def translateStmts (stmts : List Stmt) (fc : FunctionA) (fns : List (String × FnSig))
    (blk : Option Nat) (st : TransSt) : Except TcFail (Option Nat × TransSt) :=
  match stmts with
  | [] => .ok (blk, st)
  | s :: rest =>
    match blk with
    | none => .ok (none, st)
    | some b =>
      match s with
      | .letStmt name ty value =>
        let (var, raw1) := st.raw.newLocal ty
        let st1 : TransSt := { raw := raw1, locals := (name, var) :: st.locals }
        match value with
        | some v => do
          let (val, cont, st2) ← translateExpr v fc fns b st1
          match cont with
          | some b2 =>
            translateStmts rest fc fns (some b2)
              { st2 with raw := st2.raw.writeToVar b2 (.localL var) val }
          | none => translateStmts rest fc fns none st2
        | none => translateStmts rest fc fns (some b) st1
      | .exprStmt e => do
        let (val, cont, st1) ← translateExpr e fc fns b st
        match cont with
        | some b2 =>
          let (_, raw2) := st1.raw.writeToTmp b2 (.use val) (st1.raw.valueTy val)
          translateStmts rest fc fns (some b2) { st1 with raw := raw2 }
        | none => translateStmts rest fc fns none st1
termination_by stmtListSize stmts + 1
decreasing_by
  all_goals simp [exprSize, kindSize, exprListSize, blockSize, optExprSize, stmtListSize,
    stmtSize]
  all_goals omega

/-- Expr::translate_block. -/
def translateBlock (body : BlockA) (fc : FunctionA) (fns : List (String × FnSig))
    (blk : Nat) (st : TransSt) : Except TcFail (MirValue × Option Nat × TransSt) :=
  match body with
  | .mk stmts ex => do
    let (cont, st1) ← translateStmts stmts fc fns (some blk) st
    match ex with
    | some e =>
      match cont with
      | some b2 => translateExpr e fc fns b2 st1
      | none => .ok (.constUnit, none, st1)
    | none => .ok (.constUnit, cont, st1)
termination_by blockSize body + 1
decreasing_by
  all_goals simp [exprSize, kindSize, exprListSize, blockSize, optExprSize, stmtListSize,
    stmtSize]
  all_goals omega

end

/- ===== THEOREMS ===== -/

/- Step lemmas for the parser, generic in the fuel. -/

theorem mpse_int (fuel : Nat) (a : Nat) (rest : List Token) :
    maybeParseSingleExpr (fuel + 1) (.integer a ("") :: rest) =
      .ok (some (Expr.intLit a), rest) := by
  simp [maybeParseSingleExpr, getTok]

theorem pse_int (fuel : Nat) (a : Nat) (rest : List Token) :
    parseSingleExpr (fuel + 2) (.integer a ("") :: rest) = .ok (Expr.intLit a, rest) := by
  simp [parseSingleExpr, mpse_int, bind, Except.bind]

theorem pb_last (fuel : Nat) (lhs : Expr) (op : Operand) (rp : Nat)
    (h : op.precedence = some rp) (c : Nat) :
    parseBinop (fuel + 3) lhs op [.integer c ("")] =
      .ok (op.exprCore lhs (Expr.intLit c), []) := by
  simp [parseBinop, pse_int, bind, Except.bind, maybeEatTy, maybePeekTy, headTok, getTok,
    Token.ty, Operand.mkExpr, h]

theorem pb_step_left (fuel : Nat) (lhs : Expr) (op1 op2 : Operand) (lp rp : Nat)
    (h1 : op1.precedence = some lp) (h2 : op2.precedence = some rp) (hge : rp ≤ lp)
    (b c : Nat) :
    parseBinop (fuel + 4) lhs op1 [.integer b (""), .operand op2, .integer c ("")] =
      .ok (op2.exprCore (op1.exprCore lhs (Expr.intLit b)) (Expr.intLit c), []) := by
  simp [parseBinop, pse_int, bind, Except.bind, maybeEatTy, maybePeekTy, headTok, getTok,
    Token.ty, h1, h2, hge, Operand.mkExpr, pb_last fuel _ _ _ h2]

theorem pb_step_right (fuel : Nat) (lhs : Expr) (op1 op2 : Operand) (lp rp : Nat)
    (h1 : op1.precedence = some lp) (h2 : op2.precedence = some rp) (hlt : lp < rp)
    (b c : Nat) :
    parseBinop (fuel + 4) lhs op1 [.integer b (""), .operand op2, .integer c ("")] =
      .ok (op1.exprCore lhs (op2.exprCore (Expr.intLit b) (Expr.intLit c)), []) := by
  simp [parseBinop, pse_int, bind, Except.bind, maybeEatTy, maybePeekTy, headTok, getTok,
    Token.ty, h1, h2, Nat.not_le.mpr hlt, Operand.mkExpr, pb_last fuel _ _ _ h2]

/-- C1: the claim says that after `else` the parser accepts a braced block or
    another if-expression, so that `if c1 \x7b..\x7d else if c2 \x7b..\x7d else \x7b..\x7d`
    chains parse into nested If expressions.  The code disagrees: the KeywordIf
    arm of the else-branch of Parser::maybe_parse_single_expr calls parse_block
    while the peeked KeywordIf token is still unconsumed, so parse_block's
    eat(OpenBrace) fails: on the token stream of
    `if true \x7b 1 \x7d else if false \x7b 2 \x7d else \x7b 3 \x7d` parsing
    returns UnexpectedToken (found KeywordIf, expected OpenBrace), while the
    same chain written with braces, `else \x7b if false \x7b 2 \x7d else \x7b 3 \x7d \x7d`,
    parses into exactly the nested If the claim expects.  Since the repository's
    own fib_10 test (src/tests.rs) requires `else if` chains to compile, this is
    a code bug, not a spec error. -/
theorem c1_else_if_fails_to_parse :
    maybeParseSingleExprRun
        [.keywordIf, .keywordTrue, .openBrace, .integer 1 (""), .closeBrace,
         .keywordElse, .keywordIf, .keywordFalse, .openBrace, .integer 2 (""), .closeBrace,
         .keywordElse, .openBrace, .integer 3 (""), .closeBrace] =
      .error (.pe (.unexpectedToken .keywordIf (.specific .openBrace)))
    ∧ maybeParseSingleExprRun
        [.keywordIf, .keywordTrue, .openBrace, .integer 1 (""), .closeBrace,
         .keywordElse, .openBrace, .keywordIf, .keywordFalse, .openBrace, .integer 2 (""),
         .closeBrace, .keywordElse, .openBrace, .integer 3 (""), .closeBrace, .closeBrace] =
      .ok (some (Expr.ifElseE (Expr.boolLit true)
            (BlockA.mk [] (some (Expr.intLit 1)))
            (BlockA.mk [] (some (Expr.ifElseE (Expr.boolLit false)
              (BlockA.mk [] (some (Expr.intLit 2)))
              (BlockA.mk [] (some (Expr.intLit 3))))))), []) :=
  ⟨rfl, rfl⟩

/-- C2 counterexample: the claim says parsing
    `fn main() -> s32 \x7b if 1 > 2 \x7breturn 1\x7d else \x7breturn 2\x7d; \x7d`
    fails with UnexpectedToken expecting a Statement; under src/parse.rs the
    program lexes and parses successfully, so the claim is false on this code. -/
theorem c2_parse_succeeds_counterexample :
    (lexAllRun (String.toList
        ("fn main() -> s32 \x7b if 1 > 2 \x7breturn 1\x7d else \x7breturn 2\x7d; \x7d"))).map
      (fun toks => isOkE (parseItemRun toks)) = .ok true :=
  rfl

/-- C2 amended: parsing the program succeeds.  The if-else expression followed
    by `;` is consumed as an ordinary expression statement (parse_stmt eats the
    semicolon), giving a function item whose body has exactly one statement and
    no trailing expression; the UnexpectedToken-expecting-Statement error of the
    claim (and of the superseded test in src/tests.rs, written against a parser
    variant that is not under src/) does not occur. -/
theorem c2_parse_result :
    (lexAllRun (String.toList
        ("fn main() -> s32 \x7b if 1 > 2 \x7breturn 1\x7d else \x7breturn 2\x7d; \x7d"))) =
      .ok [.keywordFn, .ident ("main"), .openParen, .closeParen, .skinnyArrow, .ident ("s32"),
           .openBrace, .keywordIf, .integer 1 (""), .operand .greaterThan, .integer 2 (""),
           .openBrace, .keywordReturn, .integer 1 (""), .closeBrace, .keywordElse,
           .openBrace, .keywordReturn, .integer 2 (""), .closeBrace, .semicolon, .closeBrace]
    ∧ parseItemRun
        [.keywordFn, .ident ("main"), .openParen, .closeParen, .skinnyArrow, .ident ("s32"),
         .openBrace, .keywordIf, .integer 1 (""), .operand .greaterThan, .integer 2 (""),
         .openBrace, .keywordReturn, .integer 1 (""), .closeBrace, .keywordElse,
         .openBrace, .keywordReturn, .integer 2 (""), .closeBrace, .semicolon, .closeBrace] =
      .ok (.function ("main") (.sint .i32) []
            (BlockA.mk
              [Stmt.exprStmt (Expr.ifElseE
                (Operand.greaterThan.exprCore (Expr.intLit 1) (Expr.intLit 2))
                (BlockA.mk [] (some (Expr.retE (Expr.intLit 1))))
                (BlockA.mk [] (some (Expr.retE (Expr.intLit 2)))))]
              none), []) :=
  ⟨rfl, rfl⟩

/-- C3: for `a op1 b op2 c`, equal precedence folds left, giving
    Binop(op2, Binop(op1, a, b), c), and a strictly tighter op2 recurses right,
    giving Binop(op1, a, Binop(op2, b, c)); proved for every pair of binary
    operators (the precedence hypotheses exclude only the unary `!`, which the
    source's Operand::precedence panics on) and all literal operands. -/
theorem c3_binop_associativity (a b c : Nat) (op1 op2 : Operand) (lp rp : Nat)
    (h1 : op1.precedence = some lp) (h2 : op2.precedence = some rp) :
    (lp = rp →
      parseExprRun [.integer a (""), .operand op1, .integer b (""), .operand op2,
          .integer c ("")] =
        .ok (op2.exprCore (op1.exprCore (Expr.intLit a) (Expr.intLit b)) (Expr.intLit c), []))
    ∧ (lp < rp →
      parseExprRun [.integer a (""), .operand op1, .integer b (""), .operand op2,
          .integer c ("")] =
        .ok (op1.exprCore (Expr.intLit a) (op2.exprCore (Expr.intLit b) (Expr.intLit c)), [])) := by
  constructor
  · intro heq
    show parseExpr (31 + 5) _ = _
    simp [parseExpr, pse_int, bind, Except.bind, maybeEatTy, maybePeekTy, headTok, getTok,
      Token.ty, pb_step_left 31 _ _ _ _ _ h1 h2 (Nat.le_of_eq heq.symm) b c]
  · intro hlt
    show parseExpr (31 + 5) _ = _
    simp [parseExpr, pse_int, bind, Except.bind, maybeEatTy, maybePeekTy, headTok, getTok,
      Token.ty, pb_step_right 31 _ _ _ _ _ h1 h2 hlt b c]

/-- C3 witness: `5 - 2 - 1` parses as `(5 - 2) - 1`. -/
theorem c3_binop_associativity_witness :
    parseExprRun [.integer 5 (""), .operand .minus, .integer 2 (""), .operand .minus,
        .integer 1 ("")] =
      .ok (Operand.minus.exprCore
            (Operand.minus.exprCore (Expr.intLit 5) (Expr.intLit 2)) (Expr.intLit 1), []) :=
  (c3_binop_associativity 5 2 1 .minus .minus 8 8 rfl rfl).1 rfl

/-- C4: the claim says next_token skips every properly closed (possibly nested)
    block comment and returns UnclosedComment exactly when end of input is
    reached inside a comment.  The scanner of Lexer::block_comment consumes a
    second character unconditionally after each `*` or `/`, so on the properly
    closed comment `/***/` the middle `*` swallows the `*` of the closing `*/`,
    the following `/` swallows the character after the comment, and the lexer
    reports the closed comment as UnclosedComment; a closed comment such as
    `/* a */` is skipped correctly.  Claims right, code wrong (the error's own
    meaning and the spec's description of closed comments are contradicted). -/
theorem c4_closed_comment_reported_unclosed :
    nextTokenRun (String.toList ("/* a */x")) 1 = .ok (.ident ("x"), [], 1)
    ∧ nextTokenRun (String.toList ("/***/x")) 1 = .error (.err .unclosedComment) :=
  ⟨rfl, rfl⟩

/-- C5: parse_ty accepts exactly the identifiers s8..u64 and bool (mapped to the
    corresponding interned types), `()` for Unit and the `&`/`&&` prefixes for
    references; every other identifier yields UnknownType carrying the name and
    the line argument. -/
theorem c5_parse_ty_exact (rest : List Token) (line : Nat) :
    (parseTy (.ident ("s8") :: rest) line = .ok (.sint .i8, rest)
      ∧ parseTy (.ident ("s16") :: rest) line = .ok (.sint .i16, rest)
      ∧ parseTy (.ident ("s32") :: rest) line = .ok (.sint .i32, rest)
      ∧ parseTy (.ident ("s64") :: rest) line = .ok (.sint .i64, rest)
      ∧ parseTy (.ident ("u8") :: rest) line = .ok (.uint .i8, rest)
      ∧ parseTy (.ident ("u16") :: rest) line = .ok (.uint .i16, rest)
      ∧ parseTy (.ident ("u32") :: rest) line = .ok (.uint .i32, rest)
      ∧ parseTy (.ident ("u64") :: rest) line = .ok (.uint .i64, rest)
      ∧ parseTy (.ident ("bool") :: rest) line = .ok (.bool, rest))
    ∧ parseTy (.openParen :: .closeParen :: rest) line = .ok (.unit, rest)
    ∧ (∀ s : String,
        s ∉ (["s8", "s16", "s32", "s64", "u8", "u16", "u32", "u64", "bool"] : List String) →
        parseTy (.ident s :: rest) line = .error (.pe (.unknownType s line)))
    ∧ (∀ (t : TyS) (rest2 : List Token), parseTy rest line = .ok (t, rest2) →
        parseTy (.operand .and :: rest) line = .ok (.reference t, rest2)
        ∧ parseTy (.operand .andAnd :: rest) line = .ok (.reference (.reference t), rest2)) := by
  refine ⟨⟨rfl, rfl, rfl, rfl, rfl, rfl, rfl, rfl, rfl⟩, ?_, ?_, ?_⟩
  · simp [parseTy, eat, eatTy, maybeEatTy, maybePeekTy, headTok, getTok, bind, Except.bind]
  · intro s hs
    simp only [parseTy]
    split <;> simp_all
  · intro t rest2 h
    constructor <;> simp [parseTy, h, bind, Except.bind]

/-- C5 witness: an unknown identifier and a double reference, at concrete inputs. -/
theorem c5_parse_ty_exact_witness :
    parseTy [.ident ("zz")] 7 = .error (.pe (.unknownType ("zz") 7))
    ∧ parseTy [.operand .andAnd, .ident ("bool")] 7 = .ok (.reference (.reference .bool), []) :=
  ⟨(c5_parse_ty_exact [] 7).2.2.1 ("zz") (by decide),
   ((c5_parse_ty_exact [.ident ("bool")] 7).2.2.2 TyS.bool []
      ((c5_parse_ty_exact [] 7).1.2.2.2.2.2.2.2.2)).2⟩

/-- Helper: parsing the concrete block \x7b ( ) \x7d. -/
theorem parseBlock_unit_block (fuel : Nat) (rest : List Token) :
    parseBlock (fuel + 6) (.openBrace :: .openParen :: .closeParen :: .closeBrace :: rest) =
      .ok (BlockA.mk [] (some Expr.unitLit), rest) := by
  simp [parseBlock, parseBlockLoop, parseStmt, maybeParseExpr, maybeParseSingleExpr,
    eat, eatTy, maybeEatTy, maybePeekTy, maybeEat, maybePeek, headTok, getTok, Token.ty,
    Expr.isBlock, Expr.unitLit, Expr.kind, bind, Except.bind, BlockA.new]

/-- C10: an if-expression with no else clause is parsed with a supplied else
    branch equal to a block with no statements whose trailing expression is the
    unit literal, and the result is literally the same Expr (same AST, so the
    same type constraints downstream) as parsing the program with an explicit
    `else \x7b ( ) \x7d` written out.  The hypotheses say that condToks parses
    as the condition c uniformly in the following tokens (stopping at the open
    brace) and that the braced bodyRest parses as the block blk; the offsets in
    the fuel make every sufficient fuel explicit. -/
theorem c10_missing_else_is_unit_block (condToks bodyRest : List Token) (c : Expr) (blk : BlockA)
    (n1 n2 : Nat)
    (H1 : ∀ (fuel : Nat) (suffix : List Token),
      parseExpr (fuel + n1) (condToks ++ .openBrace :: suffix) = .ok (c, .openBrace :: suffix))
    (H2 : ∀ (fuel : Nat) (suffix : List Token),
      parseBlock (fuel + n2) (.openBrace :: bodyRest ++ suffix) = .ok (blk, suffix))
    (rest : List Token) (hne : headTok rest ≠ .keywordElse) :
    (∀ fuel : Nat,
      maybeParseSingleExpr (fuel + (n1 + n2 + 8))
          (.keywordIf :: condToks ++ .openBrace :: bodyRest ++ rest) =
        .ok (some (Expr.ifElseE c blk (BlockA.exprOnly Expr.unitLit)), rest))
    ∧ (∀ fuel : Nat,
      maybeParseSingleExpr (fuel + (n1 + n2 + 8))
          (.keywordIf :: condToks ++ .openBrace :: bodyRest ++
            .keywordElse :: .openBrace :: .openParen :: .closeParen :: .closeBrace :: rest) =
        .ok (some (Expr.ifElseE c blk (BlockA.exprOnly Expr.unitLit)), rest)) := by
  have hme : maybeEat .keywordElse rest = (none, rest) := by
    simp only [maybeEat, maybeEatTy, maybePeekTy]
    rw [if_neg hne]
  constructor
  · intro fuel
    have hx : fuel + (n1 + n2 + 8) = (fuel + (n1 + n2 + 7)) + 1 := by omega
    have hc := H1 (fuel + n2 + 7) (bodyRest ++ rest)
    have hb := H2 (fuel + n1 + 7) rest
    rw [show fuel + n2 + 7 + n1 = fuel + (n1 + n2 + 7) from by omega] at hc
    rw [show fuel + n1 + 7 + n2 = fuel + (n1 + n2 + 7) from by omega] at hb
    rw [hx]
    simp only [maybeParseSingleExpr, getTok, bind, Except.bind]
    simp only [List.cons_append, List.append_assoc] at hc hb ⊢
    rw [hc]
    simp only []
    rw [hb]
    simp only [hme]
  · intro fuel
    have hx : fuel + (n1 + n2 + 8) = (fuel + (n1 + n2 + 7)) + 1 := by omega
    have hc := H1 (fuel + n2 + 7)
      (bodyRest ++ .keywordElse :: .openBrace :: .openParen :: .closeParen :: .closeBrace :: rest)
    have hb := H2 (fuel + n1 + 7)
      (.keywordElse :: .openBrace :: .openParen :: .closeParen :: .closeBrace :: rest)
    have hbl := parseBlock_unit_block (fuel + (n1 + n2 + 1)) rest
    rw [show fuel + n2 + 7 + n1 = fuel + (n1 + n2 + 7) from by omega] at hc
    rw [show fuel + n1 + 7 + n2 = fuel + (n1 + n2 + 7) from by omega] at hb
    rw [show fuel + (n1 + n2 + 1) + 6 = fuel + (n1 + n2 + 7) from by omega] at hbl
    rw [hx]
    simp only [maybeParseSingleExpr, getTok, bind, Except.bind]
    simp only [List.cons_append, List.append_assoc] at hc hb ⊢
    rw [hc]
    simp only []
    rw [hb]
    simp only [maybeEat, maybeEatTy, maybePeekTy, peekTy, headTok, getTok]
    simp [hbl, BlockA.exprOnly]

/-- C10 witness: `if true \x7b 1 \x7d` and `if true \x7b 1 \x7d else \x7b ( ) \x7d`
    parse to the identical If expression whose else branch is the empty block
    with unit trailing expression. -/
theorem c10_missing_else_is_unit_block_witness :
    maybeParseSingleExpr 17
        [.keywordIf, .keywordTrue, .openBrace, .integer 1 (""), .closeBrace, .eof] =
      .ok (some (Expr.ifElseE (Expr.boolLit true) (BlockA.mk [] (some (Expr.intLit 1)))
            (BlockA.exprOnly Expr.unitLit)), [.eof])
    ∧ maybeParseSingleExpr 17
        [.keywordIf, .keywordTrue, .openBrace, .integer 1 (""), .closeBrace,
         .keywordElse, .openBrace, .openParen, .closeParen, .closeBrace, .eof] =
      .ok (some (Expr.ifElseE (Expr.boolLit true) (BlockA.mk [] (some (Expr.intLit 1)))
            (BlockA.exprOnly Expr.unitLit)), [.eof]) := by
  have H1 : ∀ (fuel : Nat) (suffix : List Token),
      parseExpr (fuel + 3) ([Token.keywordTrue] ++ .openBrace :: suffix) =
        .ok (Expr.boolLit true, .openBrace :: suffix) := by
    intro fuel suffix
    simp [parseExpr, parseSingleExpr, maybeParseSingleExpr, getTok, maybeEatTy, maybePeekTy,
      headTok, Token.ty, maybeEat, bind, Except.bind]
  have H2 : ∀ (fuel : Nat) (suffix : List Token),
      parseBlock (fuel + 6) (.openBrace :: [Token.integer 1 (""), Token.closeBrace] ++ suffix) =
        .ok (BlockA.mk [] (some (Expr.intLit 1)), suffix) := by
    intro fuel suffix
    simp [parseBlock, parseBlockLoop, parseStmt, maybeParseExpr, maybeParseSingleExpr,
      eat, eatTy, maybeEatTy, maybePeekTy, maybeEat, maybePeek, headTok, getTok, Token.ty,
      Expr.isBlock, Expr.intLit, Expr.kind, bind, Except.bind, BlockA.new]
  have h := c10_missing_else_is_unit_block [Token.keywordTrue]
    [Token.integer 1 (""), Token.closeBrace] (Expr.boolLit true)
    (BlockA.mk [] (some (Expr.intLit 1))) 3 6 H1 H2 [Token.eof] (by decide)
  exact ⟨h.1 0, h.2 0⟩

/-- C9: on a decimal digit run whose value exceeds 2^64 - 1 (twenty nines), the
    integer case of Lexer::next_token panics in the expect on the u64 parse
    instead of returning a ParserError; a run that still fits (nineteen nines)
    lexes normally.  The lexer is therefore not total over digit runs. -/
theorem c9_integer_overflow_panics :
    nextTokenRun (List.replicate 20 ('9')) 1 = .error (.panicked ("u64 parse overflow"))
    ∧ nextTokenRun (List.replicate 19 ('9')) 1 = .ok (.integer (10 ^ 19 - 1) (""), [], 1) :=
  ⟨rfl, rfl⟩

/- Step lemmas for C6: phase-1 type checking stops at a bare Return statement,
   and phase-2 finalization raises StatementsAfterReturn past one. -/

theorem typeckStmts_stops_at_return (pre : List Stmt) (inner : Expr) (rty : TyS)
    (post : List Stmt) (st : TcSt) (f : FunctionA) (fns : List (String × FnSig)) :
    typeckStmts (pre ++ .exprStmt (.mk (.ret inner) rty) :: post) st f fns =
      (typeckStmts (pre ++ [.exprStmt (.mk (.ret inner) rty)]) st f fns).map
        (fun r => (r.1 ++ post, r.2)) := by
  induction pre generalizing st with
  | nil =>
    simp only [List.nil_append, typeckStmts, bind, Except.bind]
    cases h : unifyType (.mk (.ret inner) rty) .diverging st f fns with
    | error e => simp [Except.map]
    | ok v => simp [Except.map]
  | cons s pre ih =>
    cases s with
    | letStmt name ty value =>
      simp only [List.cons_append, typeckStmts, bind, Except.bind]
      rcases hgen : ty.generateInferenceId st.uf with ⟨ty2, uf2⟩
      cases value with
      | none =>
        simp only [pure, Except.pure, ih]
        cases hts : typeckStmts (pre ++ [.exprStmt (.mk (.ret inner) rty)])
            { uf := uf2, vars := (name, ty2) :: ({ st with uf := uf2 } : TcSt).vars } f fns with
        | error e => simp [hts, Except.map]
        | ok v => simp [hts, Except.map]
      | some v =>
        cases huni : unifyType v ty2 { st with uf := uf2 } f fns with
        | error e => simp [huni, Except.map]
        | ok p =>
          simp only [huni, pure, Except.pure, ih]
          cases hts : typeckStmts (pre ++ [.exprStmt (.mk (.ret inner) rty)])
              { p.2 with vars := (name, ty2) :: p.2.vars } f fns with
          | error e => simp [hts, Except.map]
          | ok v2 => simp [hts, Except.map]
    | exprStmt e =>
      rcases e with ⟨k, ty⟩
      cases k with
      | ret e2 =>
        simp only [List.cons_append, typeckStmts, bind, Except.bind]
        cases h : unifyType (.mk (.ret e2) ty) .diverging st f fns with
        | error e3 => simp [h, Except.map]
        | ok v => simp [h, Except.map, List.append_assoc]
      | _ =>
        simp only [List.cons_append, typeckStmts, bind, Except.bind]
        first
        | (rcases hgen : (TyS.infer none).generateInferenceId st.uf with ⟨ty0, uf2⟩
           cases huni : unifyType (.mk _ ty) ty0 { st with uf := uf2 } f fns with
           | error e3 => simp [huni, Except.map]
           | ok p =>
             simp only [huni, pure, Except.pure, ih]
             cases hts : typeckStmts (pre ++ [.exprStmt (.mk (.ret inner) rty)]) p.2 f fns with
             | error e3 => simp [hts, Except.map]
             | ok v2 => simp [hts, Except.map])



theorem typeckStmts_return_not_live (pre : List Stmt) (inner : Expr) (rty : TyS)
    (st : TcSt) (f : FunctionA) (fns : List (String × FnSig)) (out : List Stmt × Bool × TcSt)
    (h : typeckStmts (pre ++ [.exprStmt (.mk (.ret inner) rty)]) st f fns = .ok out) :
    out.2.1 = false := by
  induction pre generalizing st out with
  | nil =>
    simp only [List.nil_append, typeckStmts, bind, Except.bind] at h
    cases hu : unifyType (.mk (.ret inner) rty) .diverging st f fns with
    | error e => simp [hu] at h
    | ok v => simp [hu] at h; simp [← h]
  | cons s pre ih =>
    cases s with
    | letStmt name ty value =>
      simp only [List.cons_append, typeckStmts, bind, Except.bind] at h
      rcases hgen : ty.generateInferenceId st.uf with ⟨ty2, uf2⟩
      rw [hgen] at h
      dsimp only at h
      cases value with
      | none =>
        dsimp only at h
        simp only [pure, Except.pure] at h
        cases hts : typeckStmts (pre ++ [.exprStmt (.mk (.ret inner) rty)])
            { uf := uf2, vars := (name, ty2) :: ({ st with uf := uf2 } : TcSt).vars } f fns with
        | error e => rw [hts] at h; simp at h
        | ok v =>
          rw [hts] at h
          simp at h
          have := ih _ _ hts
          simp [← h, this]
      | some v =>
        dsimp only at h
        cases huni : unifyType v ty2 { st with uf := uf2 } f fns with
        | error e => rw [huni] at h; simp at h
        | ok p =>
          rw [huni] at h
          simp only [pure, Except.pure] at h
          cases hts : typeckStmts (pre ++ [.exprStmt (.mk (.ret inner) rty)])
              { p.2 with vars := (name, ty2) :: p.2.vars } f fns with
          | error e => rw [hts] at h; simp at h
          | ok v2 =>
            rw [hts] at h
            simp at h
            have := ih _ _ hts
            simp [← h, this]
    | exprStmt e =>
      rcases e with ⟨k, ty⟩
      cases k with
      | ret e2 =>
        simp only [List.cons_append, typeckStmts, bind, Except.bind] at h
        cases hu : unifyType (.mk (.ret e2) ty) .diverging st f fns with
        | error e3 => rw [hu] at h; simp at h
        | ok v => rw [hu] at h; simp at h; simp [← h]
      | _ =>
        simp only [List.cons_append, typeckStmts, bind, Except.bind] at h
        first
        | (rcases hgen : (TyS.infer none).generateInferenceId st.uf with ⟨ty0, uf2⟩
           rw [hgen] at h
           dsimp only at h
           cases huni : unifyType (.mk _ ty) ty0 { st with uf := uf2 } f fns with
           | error e3 => rw [huni] at h; simp at h
           | ok p =>
             rw [huni] at h
             simp only [pure, Except.pure] at h
             cases hts : typeckStmts (pre ++ [.exprStmt (.mk (.ret inner) rty)]) p.2 f fns with
             | error e3 => rw [hts] at h; simp at h
             | ok v2 =>
               rw [hts] at h
               simp at h
               have := ih _ _ hts
               simp [← h, this])



theorem typeckBlock_stops_at_return (pre post : List Stmt) (inner : Expr) (rty : TyS)
    (ex : Option Expr) (toU : TyS) (st : TcSt) (f : FunctionA) (fns : List (String × FnSig)) :
    typeckBlock (.mk (pre ++ .exprStmt (.mk (.ret inner) rty) :: post) ex) toU st f fns =
      (typeckBlock (.mk (pre ++ [.exprStmt (.mk (.ret inner) rty)]) none) toU st f fns).map
        (fun r => (BlockA.mk (r.1.stmts ++ post) ex, r.2)) := by
  simp only [typeckBlock, bind, Except.bind,
    typeckStmts_stops_at_return pre inner rty post st f fns]
  cases hts : typeckStmts (pre ++ [.exprStmt (.mk (.ret inner) rty)]) st f fns with
  | error e => simp [Except.map]
  | ok v =>
    have hlive := typeckStmts_return_not_live pre inner rty st f fns v hts
    simp [Except.map, hlive, BlockA.stmts]

theorem finalizeStmts_dead_errors (l : List Stmt) (uf : UnionFind) (f : FunctionA)
    (hne : l ≠ []) :
    finalizeStmts l false uf f = .error (.err (.statementsAfterReturn f.name)) := by
  cases l with
  | nil => exact absurd rfl hne
  | cons s rest =>
    rw [finalizeStmts.eq_def]
    simp

theorem finalizeStmts_nil (live : Bool) (uf : UnionFind) (f : FunctionA) :
    finalizeStmts [] live uf f = .ok ([], live) := by
  rw [finalizeStmts.eq_def]

theorem finalizeStmts_return_not_live (pre : List Stmt) (inner : Expr) (rty : TyS)
    (live : Bool) (uf : UnionFind) (f : FunctionA) (out : List Stmt × Bool)
    (h : finalizeStmts (pre ++ [.exprStmt (.mk (.ret inner) rty)]) live uf f = .ok out) :
    out.2 = false := by
  induction pre generalizing live out with
  | nil =>
    cases live with
    | false =>
      simp only [List.nil_append] at h
      rw [finalizeStmts.eq_def] at h
      dsimp only at h
      exact Except.noConfusion h
    | true =>
      simp only [List.nil_append] at h
      rw [finalizeStmts.eq_def] at h
      dsimp only at h
      simp only [bind, Except.bind, pure, Except.pure, reduceIte, finalizeStmts_nil] at h
      repeat' split at h
      all_goals try exact Except.noConfusion h
      all_goals injection h with h2
      all_goals cases h2
      all_goals rfl
  | cons s pre ih =>
    cases live with
    | false =>
      simp only [List.cons_append] at h
      rw [finalizeStmts.eq_def] at h
      dsimp only at h
      exact Except.noConfusion h
    | true =>
      simp only [List.cons_append] at h
      rw [finalizeStmts.eq_def] at h
      dsimp only at h
      simp only [bind, Except.bind, pure, Except.pure, reduceIte] at h
      repeat' split at h
      all_goals try exact Except.noConfusion h
      all_goals injection h with h2
      all_goals cases h2
      all_goals dsimp only
      all_goals exact ih _ _ (by assumption)



theorem finalizeStmts_after_return_error (pre : List Stmt) (inner : Expr) (rty : TyS)
    (s0 : Stmt) (post : List Stmt) (live : Bool) (uf : UnionFind) (f : FunctionA)
    (out : List Stmt × Bool)
    (h : finalizeStmts (pre ++ [.exprStmt (.mk (.ret inner) rty)]) live uf f = .ok out) :
    finalizeStmts (pre ++ .exprStmt (.mk (.ret inner) rty) :: s0 :: post) live uf f =
      .error (.err (.statementsAfterReturn f.name)) := by
  induction pre generalizing live out with
  | nil =>
    cases live with
    | false =>
      simp only [List.nil_append] at h
      rw [finalizeStmts.eq_def] at h
      dsimp only at h
      exact Except.noConfusion h
    | true =>
      simp only [List.nil_append] at h ⊢
      rw [finalizeStmts.eq_def] at h
      rw [finalizeStmts.eq_def]
      dsimp only at h ⊢
      simp only [bind, Except.bind, pure, Except.pure, reduceIte, finalizeStmts_nil] at h ⊢
      repeat' split at h
      all_goals try exact Except.noConfusion h
      all_goals simp [finalizeStmts_dead_errors, *]
  | cons s pre ih =>
    cases live with
    | false =>
      simp only [List.cons_append] at h
      rw [finalizeStmts.eq_def] at h
      dsimp only at h
      exact Except.noConfusion h
    | true =>
      simp only [List.cons_append] at h ⊢
      rw [finalizeStmts.eq_def] at h
      rw [finalizeStmts.eq_def]
      dsimp only at h ⊢
      simp only [bind, Except.bind, pure, Except.pure, reduceIte] at h ⊢
      repeat' split at h
      all_goals try exact Except.noConfusion h
      all_goals (have hih := ih _ _ (by assumption); simp [hih, *])



/-- C6: a block whose statement list contains a bare Return statement followed by
    further statements (or, with the Return last, a trailing block expression)
    fails phase-2 finalization with StatementsAfterReturn; and phase-1 type
    checking stops iterating at the Return: its result is exactly that of the
    block truncated after the Return (with no trailing expression), with the
    statements past the Return and the trailing expression passed through
    untouched (not unified). -/
theorem c6_statements_after_return (pre post : List Stmt) (inner : Expr) (rty : TyS)
    (ex : Option Expr) :
    (∀ (toU : TyS) (st : TcSt) (f : FunctionA) (fns : List (String × FnSig)),
      typeckBlock (.mk (pre ++ .exprStmt (.mk (.ret inner) rty) :: post) ex) toU st f fns =
        (typeckBlock (.mk (pre ++ [.exprStmt (.mk (.ret inner) rty)]) none) toU st f fns).map
          (fun r => (BlockA.mk (r.1.stmts ++ post) ex, r.2)))
    ∧ (∀ (uf : UnionFind) (f : FunctionA) (bout : BlockA),
        finalizeBlockTy (.mk (pre ++ [.exprStmt (.mk (.ret inner) rty)]) none) uf f = .ok bout →
        post ≠ [] ∨ ex ≠ none →
        finalizeBlockTy (.mk (pre ++ .exprStmt (.mk (.ret inner) rty) :: post) ex) uf f =
          .error (.err (.statementsAfterReturn f.name))) := by
  constructor
  · intro toU st f fns
    exact typeckBlock_stops_at_return pre post inner rty ex toU st f fns
  · intro uf f bout h hne
    simp only [finalizeBlockTy, bind, Except.bind] at h ⊢
    cases hts : finalizeStmts (pre ++ [.exprStmt (.mk (.ret inner) rty)]) true uf f with
    | error e => rw [hts] at h; exact Except.noConfusion h
    | ok v =>
      have hlive := finalizeStmts_return_not_live pre inner rty true uf f v hts
      cases post with
      | nil =>
        rcases hne with hne | hne
        · exact absurd rfl hne
        · rcases hex : ex with _ | e
          · exact absurd hex hne
          · rw [hts]
            dsimp only
            simp [hlive]
      | cons s0 post2 =>
        rw [finalizeStmts_after_return_error pre inner rty s0 post2 true uf f v hts]

/-- C6 witness: the block \x7b return (); (); \x7d, with an empty union-find and a
    unit-returning function, finalizes to StatementsAfterReturn. -/
theorem c6_statements_after_return_witness :
    finalizeBlockTy
        (BlockA.mk
          [Stmt.exprStmt (Expr.mk (ExprKind.ret (Expr.mk ExprKind.unitLiteral TyS.unit))
              TyS.diverging),
           Stmt.exprStmt (Expr.mk ExprKind.unitLiteral TyS.unit)] none)
        ⟨[]⟩ ⟨"main", [], TyS.unit⟩ =
      .error (.err (.statementsAfterReturn ("main"))) := by
  have h : finalizeBlockTy
      (BlockA.mk
        [Stmt.exprStmt (Expr.mk (ExprKind.ret (Expr.mk ExprKind.unitLiteral TyS.unit))
            TyS.diverging)] none)
      ⟨[]⟩ ⟨"main", [], TyS.unit⟩ =
      .ok (BlockA.mk
        [Stmt.exprStmt (Expr.mk (ExprKind.ret (Expr.mk ExprKind.unitLiteral TyS.unit))
            TyS.diverging)] none) := by
    simp [finalizeBlockTy, finalizeStmts, finalizeType, finalizeStmts_nil, bind, Except.bind,
      UnionFind.actualTy, UnionFind.actualTyF, tySize]
  exact (c6_statements_after_return []
    [Stmt.exprStmt (Expr.mk ExprKind.unitLiteral TyS.unit)]
    (Expr.mk ExprKind.unitLiteral TyS.unit) TyS.diverging none).2
    ⟨[]⟩ ⟨"main", [], TyS.unit⟩ _ h (by simp)

/-- C7: translating `a && b` produces exactly the translation of
    `if !a \x7b false \x7d else \x7b b \x7d`, and translating `a || b` exactly
    the translation of `if a \x7b true \x7d else \x7b b \x7d`, each rewritten
    expression carrying the original expression's type; the translations are
    literally equal for every state, so the rewrites preserve observable
    semantics of the emitted MIR. -/
theorem c7_short_circuit_rewrites (lhs rhs : Expr) (ty : TyS) (fc : FunctionA)
    (fns : List (String × FnSig)) (blk : Nat) (st : TransSt) :
    translateExpr (.mk (.binop .andAnd lhs rhs) ty) fc fns blk st =
      translateExpr (.mk (.ifExpr (Expr.notE lhs) (BlockA.exprOnly (Expr.boolLit false))
        (BlockA.exprOnly rhs)) ty) fc fns blk st
    ∧ translateExpr (.mk (.binop .orOr lhs rhs) ty) fc fns blk st =
      translateExpr (.mk (.ifExpr lhs (BlockA.exprOnly (Expr.boolLit true))
        (BlockA.exprOnly rhs)) ty) fc fns blk st := by
  constructor
  · cases hfin : ty.isFinalType with
    | false =>
      conv_lhs => rw [translateExpr.eq_def]
      conv_rhs => rw [translateExpr.eq_def]
      simp [hfin]
    | true =>
      conv_lhs => rw [translateExpr.eq_def]
      simp [hfin]
  · cases hfin : ty.isFinalType with
    | false =>
      conv_lhs => rw [translateExpr.eq_def]
      conv_rhs => rw [translateExpr.eq_def]
      simp [hfin]
    | true =>
      conv_lhs => rw [translateExpr.eq_def]
      simp [hfin]

/-- C8: once a statement returns a none continuation, the statement loop of
    translate_block translates nothing further and returns none with the state
    unchanged (so a none continuation is never turned back into some within the
    path), and a block whose statements diverged yields a none continuation
    without translating its trailing expression. -/
theorem c8_divergence_is_final :
    (∀ (stmts : List Stmt) (fc : FunctionA) (fns : List (String × FnSig)) (st : TransSt),
      translateStmts stmts fc fns none st = .ok (none, st))
    ∧ (∀ (body : BlockA) (fc : FunctionA) (fns : List (String × FnSig)) (blk : Nat)
        (st st2 : TransSt),
        translateStmts body.stmts fc fns (some blk) st = .ok (none, st2) →
        translateBlock body fc fns blk st = .ok (.constUnit, none, st2)) := by
  constructor
  · intro stmts fc fns st
    cases stmts with
    | nil => rw [translateStmts.eq_def]
    | cons s rest => rw [translateStmts.eq_def]
  · intro body fc fns blk st st2 h
    cases body with
    | mk stmts ex =>
      rw [translateBlock.eq_def]
      dsimp only [BlockA.stmts] at h
      simp only [bind, Except.bind, h]
      cases ex <;> simp



/-- C8 witness: the block \x7b return (); \x7d from a one-block function diverges:
    its translation is the unit value with no continuation, the return written. -/
theorem c8_divergence_is_final_witness :
    translateBlock
        (BlockA.mk [Stmt.exprStmt (Expr.mk (ExprKind.ret
          (Expr.mk ExprKind.unitLiteral TyS.unit)) TyS.diverging)] none)
        ⟨"main", [], TyS.unit⟩ [] 0
        ⟨⟨TyS.unit, [], [], [], [⟨[], none, none⟩]⟩, []⟩ =
      .ok (.constUnit, none,
        ⟨⟨TyS.unit, [], [], [], [⟨[⟨.retL, .use .constUnit⟩], some .retT, none⟩]⟩, []⟩) := by
  have h1 : translateExpr (Expr.mk ExprKind.unitLiteral TyS.unit) ⟨"main", [], TyS.unit⟩ [] 0
      ⟨⟨TyS.unit, [], [], [], [⟨[], none, none⟩]⟩, []⟩ =
      .ok (.constUnit, some 0, ⟨⟨TyS.unit, [], [], [], [⟨[], none, none⟩]⟩, []⟩) := by
    rw [translateExpr.eq_def]
    rfl
  have h2 : translateExpr (Expr.mk (ExprKind.ret (Expr.mk ExprKind.unitLiteral TyS.unit))
        TyS.diverging) ⟨"main", [], TyS.unit⟩ [] 0
      ⟨⟨TyS.unit, [], [], [], [⟨[], none, none⟩]⟩, []⟩ =
      .ok (.constUnit, none,
        ⟨⟨TyS.unit, [], [], [], [⟨[⟨.retL, .use .constUnit⟩], some .retT, none⟩]⟩, []⟩) := by
    rw [translateExpr.eq_def]
    simp only [bind, Except.bind, h1, TyS.isFinalType]
    rfl
  have h3 : translateStmts [Stmt.exprStmt (Expr.mk (ExprKind.ret
        (Expr.mk ExprKind.unitLiteral TyS.unit)) TyS.diverging)] ⟨"main", [], TyS.unit⟩ []
      (some 0) ⟨⟨TyS.unit, [], [], [], [⟨[], none, none⟩]⟩, []⟩ =
      .ok (none,
        ⟨⟨TyS.unit, [], [], [], [⟨[⟨.retL, .use .constUnit⟩], some .retT, none⟩]⟩, []⟩) := by
    rw [translateStmts.eq_def]
    simp only [bind, Except.bind, h2]
    exact c8_divergence_is_final.1 _ _ _ _
  exact c8_divergence_is_final.2 _ _ _ _ _ _ h3

end SyavaLang
